import Mathlib

set_option maxHeartbeats 1000000
set_option maxRecDepth 10000

/-!
Shallow embedding of the MultiSend settlement contracts
(src/web3/multisender.sol, MultiSendWithFees, and the minimal
MultiSend variant in the repository).

Addresses and wei amounts are modelled as Nat; Solidity 0.8 checked
arithmetic is modelled by explicit overflow tests against 2 ^ 256
(overflow aborts the call, it never wraps).  External calls are modelled
by oracles: ethOk r a tells whether the low-level gas-bounded native
transfer of a wei to r returns success, pullOk whether the ERC20
transferFrom pull returns true, and tokOk r a whether the ERC20
transfer(r, a) returns true.  A call is a function
EngineState → Except SolError CallOut; an .error result models a
revert, and runCall implements the EVM rollback semantics (a reverted
call leaves the pre-call state, including the caller's msg.value).
-/

def NOT_ENTERED : Nat := 1

def ENTERED : Nat := 2

def UINT_LIMIT : Nat := 2 ^ 256

/-- 0.1 ether in wei, the flat-fee ceiling of the contract. -/
def MAX_FLAT_FEE : Nat := 10 ^ 17

structure Config where
  owner : Nat
  feeCollector : Nat
  flatFee : Nat
  feesEnabled : Bool
deriving DecidableEq, Repr

structure EngineState where
  config : Config
  status : Nat
  balance : Nat
deriving DecidableEq, Repr

inductive Event where
  | MultiTransferETH (sender total fee count : Nat)
  | MultiTransferERC20 (sender token total fee count : Nat)
  | TransferFailed (recipient amount : Nat)
  | FeesToggled (enabled : Bool)
  | FlatFeeUpdated (newFee : Nat)
  | FeeCollectorUpdated (collector : Nat)
  | Withdrawal (recipient amount : Nat)
deriving DecidableEq, Repr

inductive SolError where
  | reentrant
  | notOwner
  | noRecipients
  | tooManyRecipients
  | noETHSent
  | insufficientETHForFee
  | zeroPerRecipient
  | invalidRecipient
  | lengthMismatch
  | zeroAmount
  | insufficientETHSent
  | overflow
  | invalidToken
  | tokenTransferFailed
  | transferFailed
  | noFunds
  | insufficientBalance
  | withdrawalFailed
  | invalidFeeCollector
  | feeTooHigh
  | noTokens
  | insufficientTokenBalance
  | tokenWithdrawalFailed
deriving DecidableEq, Repr

/-- Result of a non-reverting call: final engine state, emitted events,
successful native transfers out of the engine (recipient, amount),
total tokens pulled into the engine by transferFrom, and successful
token transfers out of the engine. -/
structure CallOut where
  state : EngineState
  events : List Event
  sent : List (Nat × Nat)
  tokenPulled : Nat
  tokenSent : List (Nat × Nat)
deriving DecidableEq, Repr

abbrev Step := EngineState × List Event × List (Nat × Nat)

/-- getCurrentFee() of the contract: _feesEnabled ? _flatFee : 0. -/
def getCurrentFee (st : EngineState) : Nat :=
  if st.config.feesEnabled then st.config.flatFee else 0

/-- _safeTransferETH: the gas-bounded low-level native transfer.  A
failed transfer (recipient refuses, or insufficient engine balance) does
not revert: it only emits TransferFailed and leaves the balance. -/
def _safeTransferETH (ethOk : Nat → Nat → Bool) (st : EngineState)
    (recipient amount : Nat) : Step :=
  if amount ≤ st.balance ∧ ethOk recipient amount = true then
    ({ st with balance := st.balance - amount }, [], [(recipient, amount)])
  else
    (st, [Event.TransferFailed recipient amount], [])

/-- The per-recipient native payout loop.  checkZero models the
require(recipients[i] != address(0)) present in the equal-split loop. -/
def transferSeq (ethOk : Nat → Nat → Bool) (checkZero : Bool)
    (pairs : List (Nat × Nat)) (st : EngineState) : Except SolError Step :=
  match pairs with
  | [] => .ok (st, [], [])
  | (r, a) :: rest =>
    if checkZero = true ∧ r = 0 then .error .invalidRecipient
    else
      let s := _safeTransferETH ethOk st r a
      match transferSeq ethOk checkZero rest s.1 with
      | .ok (st2, ev2, s2) => .ok (st2, s.2.1 ++ ev2, s.2.2 ++ s2)
      | .error e => .error e

/-- The per-recipient ERC20 payout loop: require(erc20.transfer(...)),
so any failed token transfer reverts the whole call. -/
def tokenTransferSeq (tokOk : Nat → Nat → Bool) (checkZero : Bool)
    (pairs : List (Nat × Nat)) : Except SolError (List (Nat × Nat)) :=
  match pairs with
  | [] => .ok []
  | (r, a) :: rest =>
    if checkZero = true ∧ r = 0 then .error .invalidRecipient
    else if tokOk r a = true then
      match tokenTransferSeq tokOk checkZero rest with
      | .ok s => .ok ((r, a) :: s)
      | .error e => .error e
    else .error .transferFailed

/-- The validation loop of the explicit-amounts paths: every recipient
non-zero, every amount positive, running total with checked addition. -/
def validateAmounts (pairs : List (Nat × Nat)) (acc : Nat) : Except SolError Nat :=
  match pairs with
  | [] => .ok acc
  | (r, a) :: rest =>
    if r = 0 then .error .invalidRecipient
    else if a = 0 then .error .zeroAmount
    else if UINT_LIMIT ≤ acc + a then .error .overflow
    else validateAmounts rest (acc + a)

/-- The nonReentrant modifier: reject when the flag is ENTERED, run
the body with the flag ENTERED, reset it to NOT_ENTERED on normal
completion (a revert resets it through the rollback in runCall). -/
def guarded (body : EngineState → Except SolError CallOut)
    (st : EngineState) : Except SolError CallOut :=
  if st.status = ENTERED then .error .reentrant
  else
    match body { st with status := ENTERED } with
    | .ok out => .ok { out with state := { out.state with status := NOT_ENTERED } }
    | .error e => .error e

/-- EVM call semantics: a revert rolls every state change back. -/
def runCall (f : EngineState → Except SolError CallOut)
    (st : EngineState) : EngineState :=
  match f st with
  | .ok out => out.state
  | .error _ => st

/-- Fee collection: one gas-bounded transfer of the current fee to the
fee collector when fees are enabled, a no-op otherwise. -/
def feeStep (ethOk : Nat → Nat → Bool) (st : EngineState) : Step :=
  if 0 < getCurrentFee st then
    _safeTransferETH ethOk st st.config.feeCollector (getCurrentFee st)
  else (st, [], [])

/-- Excess refund: one gas-bounded transfer of the excess back to the
caller when it is positive. -/
def excessStep (ethOk : Nat → Nat → Bool) (st : EngineState)
    (sender excess : Nat) : Step :=
  if 0 < excess then _safeTransferETH ethOk st sender excess else (st, [], [])

def sendEqualAmountsETHBody (ethOk : Nat → Nat → Bool) (sender msgValue : Nat)
    (recipients : List Nat) (st : EngineState) : Except SolError CallOut :=
  if recipients.length = 0 then .error .noRecipients
  else if 200 < recipients.length then .error .tooManyRecipients
  else if msgValue = 0 then .error .noETHSent
  else if msgValue ≤ getCurrentFee st then .error .insufficientETHForFee
  else if (msgValue - getCurrentFee st) / recipients.length = 0 then .error .zeroPerRecipient
  else
    let f := feeStep ethOk st
    match transferSeq ethOk true
        (recipients.map (fun r => (r, (msgValue - getCurrentFee st) / recipients.length))) f.1 with
    | .error e => .error e
    | .ok (st2, ev2, s2) =>
      .ok { state := st2,
            events := f.2.1 ++ ev2 ++
              [Event.MultiTransferETH sender msgValue (getCurrentFee st) recipients.length],
            sent := f.2.2 ++ s2, tokenPulled := 0, tokenSent := [] }

/-- sendEqualAmountsETH: the contract balance is credited with
msg.value before the body runs. -/
def sendEqualAmountsETH (ethOk : Nat → Nat → Bool) (sender msgValue : Nat)
    (recipients : List Nat) (st : EngineState) : Except SolError CallOut :=
  guarded (sendEqualAmountsETHBody ethOk sender msgValue recipients)
    { st with balance := st.balance + msgValue }

def sendDifferentAmountsETHBody (ethOk : Nat → Nat → Bool) (sender msgValue : Nat)
    (recipients amounts : List Nat) (st : EngineState) : Except SolError CallOut :=
  if recipients.length = 0 then .error .noRecipients
  else if 200 < recipients.length then .error .tooManyRecipients
  else if recipients.length ≠ amounts.length then .error .lengthMismatch
  else
    match validateAmounts (recipients.zip amounts) 0 with
    | .error e => .error e
    | .ok totalAmount =>
      if UINT_LIMIT ≤ totalAmount + getCurrentFee st then .error .overflow
      else if msgValue < totalAmount + getCurrentFee st then .error .insufficientETHSent
      else
        let f := feeStep ethOk st
        match transferSeq ethOk false (recipients.zip amounts) f.1 with
        | .error e => .error e
        | .ok (st2, ev2, s2) =>
          let x := excessStep ethOk st2 sender (msgValue - (totalAmount + getCurrentFee st))
          .ok { state := x.1,
                events := f.2.1 ++ ev2 ++ x.2.1 ++
                  [Event.MultiTransferETH sender totalAmount (getCurrentFee st) recipients.length],
                sent := f.2.2 ++ s2 ++ x.2.2, tokenPulled := 0, tokenSent := [] }

def sendDifferentAmountsETH (ethOk : Nat → Nat → Bool) (sender msgValue : Nat)
    (recipients amounts : List Nat) (st : EngineState) : Except SolError CallOut :=
  guarded (sendDifferentAmountsETHBody ethOk sender msgValue recipients amounts)
    { st with balance := st.balance + msgValue }

def sendEqualAmountsERC20Body (ethOk : Nat → Nat → Bool) (pullOk : Bool)
    (tokOk : Nat → Nat → Bool) (sender msgValue token totalAmount : Nat)
    (recipients : List Nat) (st : EngineState) : Except SolError CallOut :=
  if token = 0 then .error .invalidToken
  else if recipients.length = 0 then .error .noRecipients
  else if 200 < recipients.length then .error .tooManyRecipients
  else if totalAmount = 0 then .error .zeroAmount
  else if msgValue < getCurrentFee st then .error .insufficientETHForFee
  else if totalAmount / recipients.length = 0 then .error .zeroPerRecipient
  else
    let f := feeStep ethOk st
    if pullOk = false then .error .tokenTransferFailed
    else
      match tokenTransferSeq tokOk true
          (recipients.map (fun r => (r, totalAmount / recipients.length))) with
      | .error e => .error e
      | .ok tsent =>
        let x := excessStep ethOk f.1 sender (msgValue - getCurrentFee st)
        .ok { state := x.1,
              events := f.2.1 ++ x.2.1 ++
                [Event.MultiTransferERC20 sender token totalAmount (getCurrentFee st) recipients.length],
              sent := f.2.2 ++ x.2.2, tokenPulled := totalAmount, tokenSent := tsent }

def sendEqualAmountsERC20 (ethOk : Nat → Nat → Bool) (pullOk : Bool)
    (tokOk : Nat → Nat → Bool) (sender msgValue token : Nat)
    (recipients : List Nat) (totalAmount : Nat) (st : EngineState) :
    Except SolError CallOut :=
  guarded (sendEqualAmountsERC20Body ethOk pullOk tokOk sender msgValue token totalAmount recipients)
    { st with balance := st.balance + msgValue }

def sendDifferentAmountsERC20Body (ethOk : Nat → Nat → Bool) (pullOk : Bool)
    (tokOk : Nat → Nat → Bool) (sender msgValue token : Nat)
    (recipients amounts : List Nat) (st : EngineState) : Except SolError CallOut :=
  if token = 0 then .error .invalidToken
  else if recipients.length = 0 then .error .noRecipients
  else if 200 < recipients.length then .error .tooManyRecipients
  else if recipients.length ≠ amounts.length then .error .lengthMismatch
  else if msgValue < getCurrentFee st then .error .insufficientETHForFee
  else
    match validateAmounts (recipients.zip amounts) 0 with
    | .error e => .error e
    | .ok totalAmount =>
      let f := feeStep ethOk st
      if pullOk = false then .error .tokenTransferFailed
      else
        match tokenTransferSeq tokOk false (recipients.zip amounts) with
        | .error e => .error e
        | .ok tsent =>
          let x := excessStep ethOk f.1 sender (msgValue - getCurrentFee st)
          .ok { state := x.1,
                events := f.2.1 ++ x.2.1 ++
                  [Event.MultiTransferERC20 sender token totalAmount (getCurrentFee st) recipients.length],
                sent := f.2.2 ++ x.2.2, tokenPulled := totalAmount, tokenSent := tsent }

def sendDifferentAmountsERC20 (ethOk : Nat → Nat → Bool) (pullOk : Bool)
    (tokOk : Nat → Nat → Bool) (sender msgValue token : Nat)
    (recipients amounts : List Nat) (st : EngineState) : Except SolError CallOut :=
  guarded (sendDifferentAmountsERC20Body ethOk pullOk tokOk sender msgValue token recipients amounts)
    { st with balance := st.balance + msgValue }

def toggleFees (sender : Nat) (st : EngineState) : Except SolError CallOut :=
  if sender ≠ st.config.owner then .error .notOwner
  else
    .ok { state := { st with config := { st.config with feesEnabled := !st.config.feesEnabled } },
          events := [Event.FeesToggled (!st.config.feesEnabled)],
          sent := [], tokenPulled := 0, tokenSent := [] }

def setFlatFee (sender newFee : Nat) (st : EngineState) : Except SolError CallOut :=
  if sender ≠ st.config.owner then .error .notOwner
  else if MAX_FLAT_FEE < newFee then .error .feeTooHigh
  else
    .ok { state := { st with config := { st.config with flatFee := newFee } },
          events := [Event.FlatFeeUpdated newFee],
          sent := [], tokenPulled := 0, tokenSent := [] }

def setFeeCollector (sender newCollector : Nat) (st : EngineState) : Except SolError CallOut :=
  if sender ≠ st.config.owner then .error .notOwner
  else if newCollector = 0 then .error .invalidFeeCollector
  else
    .ok { state := { st with config := { st.config with feeCollector := newCollector } },
          events := [Event.FeeCollectorUpdated newCollector],
          sent := [], tokenPulled := 0, tokenSent := [] }

def withdrawETHBody (ethOk : Nat → Nat → Bool) (amount : Nat)
    (st : EngineState) : Except SolError CallOut :=
  if st.balance = 0 then .error .noFunds
  else
    let withdrawAmount := if amount = 0 then st.balance else amount
    if st.balance < withdrawAmount then .error .insufficientBalance
    else if ethOk st.config.owner withdrawAmount = false then .error .withdrawalFailed
    else
      .ok { state := { st with balance := st.balance - withdrawAmount },
            events := [Event.Withdrawal st.config.owner withdrawAmount],
            sent := [(st.config.owner, withdrawAmount)],
            tokenPulled := 0, tokenSent := [] }

/-- withdrawETH: onlyOwner runs before nonReentrant (modifier order). -/
def withdrawETH (ethOk : Nat → Nat → Bool) (sender amount : Nat)
    (st : EngineState) : Except SolError CallOut :=
  if sender ≠ st.config.owner then .error .notOwner
  else guarded (withdrawETHBody ethOk amount) st

def withdrawERC20Body (tokBalance : Nat) (tokOk : Nat → Nat → Bool)
    (token amount : Nat) (st : EngineState) : Except SolError CallOut :=
  if token = 0 then .error .invalidToken
  else if tokBalance = 0 then .error .noTokens
  else
    let withdrawAmount := if amount = 0 then tokBalance else amount
    if tokBalance < withdrawAmount then .error .insufficientTokenBalance
    else if tokOk st.config.owner withdrawAmount = false then .error .tokenWithdrawalFailed
    else
      .ok { state := st, events := [], sent := [],
            tokenPulled := 0, tokenSent := [(st.config.owner, withdrawAmount)] }

/-- withdrawERC20 takes the engine's token balance as reported by
balanceOf(address(this)) as the tokBalance oracle. -/
def withdrawERC20 (tokBalance : Nat) (tokOk : Nat → Nat → Bool)
    (sender token amount : Nat) (st : EngineState) : Except SolError CallOut :=
  if sender ≠ st.config.owner then .error .notOwner
  else guarded (withdrawERC20Body tokBalance tokOk token amount) st

/-- The contract constructor. -/
def constructorFn (sender feeCollector0 flatFee0 : Nat) : Except SolError EngineState :=
  if feeCollector0 = 0 then .error .invalidFeeCollector
  else if MAX_FLAT_FEE < flatFee0 then .error .feeTooHigh
  else
    .ok { config := { owner := sender, feeCollector := feeCollector0,
                      flatFee := flatFee0, feesEnabled := false },
          status := NOT_ENTERED, balance := 0 }

/-- Total value of a list of (recipient, amount) transfers. -/
def amountSum (l : List (Nat × Nat)) : Nat := (l.map Prod.snd).sum

/-- Total value transferred to address a in a transfer list. -/
def sentTo (a : Nat) (l : List (Nat × Nat)) : Nat :=
  ((l.filter (fun p => p.1 == a)).map Prod.snd).sum

/-- The per-recipient pair list of an equal-split batch. -/
def rPairs (recipients : List Nat) (per : Nat) : List (Nat × Nat) :=
  recipients.map (fun r => (r, per))

/-- The transfers of l that the oracle lets succeed. -/
def okFilter (ethOk : Nat → Nat → Bool) (l : List (Nat × Nat)) : List (Nat × Nat) :=
  l.filter (fun p => ethOk p.1 p.2)

/-- The TransferFailed events of the transfers the oracle fails. -/
def failEvents (ethOk : Nat → Nat → Bool) (l : List (Nat × Nat)) : List Event :=
  (l.filter (fun p => !(ethOk p.1 p.2))).map (fun p => Event.TransferFailed p.1 p.2)

/-- Oracle under which every native transfer succeeds. -/
def ethOkAll : Nat → Nat → Bool := fun _ _ => true

/-- Oracle under which every token transfer succeeds. -/
def tokOkAll : Nat → Nat → Bool := fun _ _ => true

/-- Oracle under which only the transfer to address 2 fails. -/
def ethOkNot2 : Nat → Nat → Bool := fun r _ => !(r == 2)

/-- A concrete engine state: owner 100, collector 200, fees disabled. -/
def st0 : EngineState :=
  { config := { owner := 100, feeCollector := 200, flatFee := 0, feesEnabled := false },
    status := NOT_ENTERED, balance := 0 }

/-- st0 with the reentrancy flag set. -/
def stEnteredEx : EngineState := { st0 with status := ENTERED }

/-- Oracle under which only the token transfer to address 2 fails. -/
def tokOkNot2 : Nat → Nat → Bool := fun r _ => !(r == 2)

/-- st0 holding 42 wei. -/
def st42 : EngineState := { st0 with balance := 42 }

/-- 200 distinct nonzero recipient addresses. -/
def list200 : List Nat := List.range' 1 200

/-- 201 distinct nonzero recipient addresses. -/
def list201 : List Nat := List.range' 1 201

/-- A trivial guarded body used to witness the guard lemmas. -/
def okBody : EngineState → Except SolError CallOut :=
  fun s => .ok { state := s, events := [], sent := [], tokenPulled := 0, tokenSent := [] }

theorem amountSum_nil : amountSum [] = 0 := rfl

theorem amountSum_cons (p : Nat × Nat) (l : List (Nat × Nat)) :
    amountSum (p :: l) = p.2 + amountSum l := by
  simp [amountSum]

theorem amountSum_append (l1 l2 : List (Nat × Nat)) :
    amountSum (l1 ++ l2) = amountSum l1 + amountSum l2 := by
  simp [amountSum]

theorem amountSum_map_const (l : List Nat) (c : Nat) :
    amountSum (l.map (fun r => (r, c))) = l.length * c := by
  induction l with
  | nil => simp [amountSum]
  | cons h t ih =>
    simp only [List.map_cons, amountSum_cons, ih, List.length_cons]
    ring

theorem sentTo_cons (a : Nat) (p : Nat × Nat) (l : List (Nat × Nat)) :
    sentTo a (p :: l) = (if p.1 = a then p.2 else 0) + sentTo a l := by
  by_cases h : p.1 = a
  · simp [sentTo, List.filter_cons, h]
  · simp [sentTo, List.filter_cons, h]

theorem sentTo_append (a : Nat) (l1 l2 : List (Nat × Nat)) :
    sentTo a (l1 ++ l2) = sentTo a l1 + sentTo a l2 := by
  simp [sentTo, List.filter_append]

theorem sentTo_eq_zero (a : Nat) (l : List (Nat × Nat)) (h : ∀ p ∈ l, p.1 ≠ a) :
    sentTo a l = 0 := by
  induction l with
  | nil => rfl
  | cons p t ih =>
    rw [sentTo_cons, if_neg (h p (List.mem_cons_self p t))]
    simpa using ih (fun q hq => h q (List.mem_cons_of_mem p hq))

theorem transferSeq_ok (ethOk : Nat → Nat → Bool) (cz : Bool)
    (pairs : List (Nat × Nat)) (st : EngineState)
    (hz : ∀ p ∈ pairs, cz = true → p.1 ≠ 0)
    (hb : amountSum pairs ≤ st.balance) :
    transferSeq ethOk cz pairs st =
      .ok ({ st with balance := st.balance - amountSum (pairs.filter (fun p => ethOk p.1 p.2)) },
           (pairs.filter (fun p => !(ethOk p.1 p.2))).map (fun p => Event.TransferFailed p.1 p.2),
           pairs.filter (fun p => ethOk p.1 p.2)) := by
  induction pairs generalizing st with
  | nil => simp [transferSeq, amountSum]
  | cons p rest ih =>
    obtain ⟨r, a⟩ := p
    have hra : ¬(cz = true ∧ r = 0) := by
      rintro ⟨h1, h2⟩; exact hz (r, a) (by simp) h1 h2
    have hle : a ≤ st.balance := by
      have := amountSum_cons (r, a) rest
      omega
    have hrest : amountSum rest ≤ st.balance - a := by
      have := amountSum_cons (r, a) rest
      omega
    simp only [transferSeq, if_neg hra]
    by_cases hok : ethOk r a = true
    · have hsafe : _safeTransferETH ethOk st r a =
          ({ st with balance := st.balance - a }, [], [(r, a)]) := by
        rw [_safeTransferETH, if_pos ⟨hle, hok⟩]
      rw [hsafe]
      simp only []
      rw [ih _ (fun q hq h1 => hz q (List.mem_cons_of_mem _ hq) h1) hrest]
      simp only [List.filter_cons, hok]
      simp [amountSum_cons, Nat.sub_sub]
    · have hokf : ethOk r a = false := by
        cases h : ethOk r a
        · rfl
        · exact absurd h hok
      have hsafe : _safeTransferETH ethOk st r a =
          (st, [Event.TransferFailed r a], []) := by
        rw [_safeTransferETH, if_neg]
        rintro ⟨_, h2⟩; exact hok h2
      rw [hsafe]
      simp only []
      rw [ih _ (fun q hq h1 => hz q (List.mem_cons_of_mem _ hq) h1) (by omega : amountSum rest ≤ st.balance)]
      simp [List.filter_cons, hokf]

theorem tokenTransferSeq_ok (tokOk : Nat → Nat → Bool) (cz : Bool)
    (pairs : List (Nat × Nat))
    (hz : ∀ p ∈ pairs, cz = true → p.1 ≠ 0)
    (hs : ∀ p ∈ pairs, tokOk p.1 p.2 = true) :
    tokenTransferSeq tokOk cz pairs = .ok pairs := by
  induction pairs with
  | nil => rfl
  | cons p rest ih =>
    obtain ⟨r, a⟩ := p
    have hra : ¬(cz = true ∧ r = 0) := by
      rintro ⟨h1, h2⟩; exact hz (r, a) (by simp) h1 h2
    have hok : tokOk r a = true := hs (r, a) (by simp)
    simp only [tokenTransferSeq, if_neg hra, hok, if_pos]
    rw [ih (fun q hq h1 => hz q (List.mem_cons_of_mem _ hq) h1)
          (fun q hq => hs q (List.mem_cons_of_mem _ hq))]

theorem tokenTransferSeq_fail (tokOk : Nat → Nat → Bool) (cz : Bool)
    (pairs : List (Nat × Nat))
    (hz : ∀ p ∈ pairs, cz = true → p.1 ≠ 0)
    (hf : ∃ p ∈ pairs, tokOk p.1 p.2 = false) :
    tokenTransferSeq tokOk cz pairs = .error .transferFailed := by
  induction pairs with
  | nil => simp at hf
  | cons p rest ih =>
    obtain ⟨r, a⟩ := p
    have hra : ¬(cz = true ∧ r = 0) := by
      rintro ⟨h1, h2⟩; exact hz (r, a) (by simp) h1 h2
    by_cases hok : tokOk r a = true
    · have hf' : ∃ q ∈ rest, tokOk q.1 q.2 = false := by
        obtain ⟨q, hq, hqf⟩ := hf
        rcases List.mem_cons.mp hq with h | h
        · subst h; rw [hok] at hqf; cases hqf
        · exact ⟨q, h, hqf⟩
      simp only [tokenTransferSeq, if_neg hra, hok, if_pos]
      rw [ih (fun q hq h1 => hz q (List.mem_cons_of_mem _ hq) h1) hf']
    · have hokf : tokOk r a = false := by
        cases h : tokOk r a
        · rfl
        · exact absurd h hok
      simp [tokenTransferSeq, if_neg hra, hokf]

theorem validateAmounts_ok (pairs : List (Nat × Nat)) (acc : Nat)
    (hz : ∀ p ∈ pairs, p.1 ≠ 0) (ha : ∀ p ∈ pairs, 0 < p.2)
    (ho : acc + amountSum pairs < UINT_LIMIT) :
    validateAmounts pairs acc = .ok (acc + amountSum pairs) := by
  induction pairs generalizing acc with
  | nil => simp [validateAmounts, amountSum]
  | cons p rest ih =>
    obtain ⟨r, a⟩ := p
    have hs := amountSum_cons (r, a) rest
    have h1 : r ≠ 0 := hz (r, a) (by simp)
    have h2' : 0 < a := ha (r, a) (by simp)
    have h2 : ¬ a = 0 := by omega
    rw [hs] at ho
    have h3 : ¬ UINT_LIMIT ≤ acc + a := by omega
    simp only [validateAmounts, if_neg h1, if_neg h2, if_neg h3]
    rw [ih (acc + a) (fun q hq => hz q (List.mem_cons_of_mem _ hq))
          (fun q hq => ha q (List.mem_cons_of_mem _ hq)) (by omega)]
    congr 1
    omega

theorem validateAmounts_error (pairs : List (Nat × Nat)) (acc : Nat) (e : SolError)
    (h : validateAmounts pairs acc = .error e) :
    e = .invalidRecipient ∨ e = .zeroAmount ∨ e = .overflow := by
  induction pairs generalizing acc with
  | nil => simp [validateAmounts] at h
  | cons p rest ih =>
    obtain ⟨r, a⟩ := p
    simp only [validateAmounts] at h
    split at h
    · injection h with h'; subst h'; simp
    · split at h
      · injection h with h'; subst h'; simp
      · split at h
        · injection h with h'; subst h'; simp
        · exact ih _ h

theorem transferSeq_error (ethOk : Nat → Nat → Bool) (cz : Bool)
    (pairs : List (Nat × Nat)) (st : EngineState) (e : SolError)
    (h : transferSeq ethOk cz pairs st = .error e) : e = .invalidRecipient := by
  induction pairs generalizing st with
  | nil => simp [transferSeq] at h
  | cons p rest ih =>
    obtain ⟨r, a⟩ := p
    simp only [transferSeq] at h
    split at h
    · injection h with h'; exact h'.symm
    · split at h
      · cases h
      · rename_i e' heq
        injection h with h'
        subst h'
        exact ih _ heq

theorem tokenTransferSeq_error (tokOk : Nat → Nat → Bool) (cz : Bool)
    (pairs : List (Nat × Nat)) (e : SolError)
    (h : tokenTransferSeq tokOk cz pairs = .error e) :
    e = .invalidRecipient ∨ e = .transferFailed := by
  induction pairs with
  | nil => simp [tokenTransferSeq] at h
  | cons p rest ih =>
    obtain ⟨r, a⟩ := p
    simp only [tokenTransferSeq] at h
    split at h
    · injection h with h'; subst h'; simp
    · split at h
      · split at h
        · cases h
        · rename_i e' heq
          injection h with h'
          subst h'
          exact ih heq
      · injection h with h'; subst h'; simp

theorem guarded_ok (body : EngineState → Except SolError CallOut) (st : EngineState)
    (out : CallOut) (hst : st.status ≠ ENTERED)
    (h : body { st with status := ENTERED } = .ok out) :
    guarded body st = .ok { out with state := { out.state with status := NOT_ENTERED } } := by
  unfold guarded
  rw [if_neg hst, h]

theorem guarded_err (body : EngineState → Except SolError CallOut) (st : EngineState)
    (e : SolError) (hst : st.status ≠ ENTERED)
    (h : body { st with status := ENTERED } = .error e) :
    guarded body st = .error e := by
  unfold guarded
  rw [if_neg hst, h]

theorem runCall_error (f : EngineState → Except SolError CallOut) (st : EngineState)
    (e : SolError) (h : f st = .error e) : runCall f st = st := by
  unfold runCall
  rw [h]

theorem sendEqualAmountsETHBody_noFee (ethOk : Nat → Nat → Bool) (sender msgValue : Nat)
    (recipients : List Nat) (stE : EngineState)
    (hn : recipients.length ≠ 0) (hn2 : recipients.length ≤ 200)
    (hz : ∀ r ∈ recipients, r ≠ 0)
    (hfee0 : getCurrentFee stE = 0)
    (hv : msgValue ≠ 0)
    (hper : msgValue / recipients.length ≠ 0)
    (hb : msgValue ≤ stE.balance) :
    sendEqualAmountsETHBody ethOk sender msgValue recipients stE =
      .ok { state := { stE with
              balance := stE.balance -
                           amountSum (okFilter ethOk (rPairs recipients (msgValue / recipients.length))) },
            events := failEvents ethOk (rPairs recipients (msgValue / recipients.length)) ++
                        [Event.MultiTransferETH sender msgValue 0 recipients.length],
            sent := okFilter ethOk (rPairs recipients (msgValue / recipients.length)),
            tokenPulled := 0, tokenSent := [] } := by
  have hn2' : ¬ 200 < recipients.length := by omega
  rw [sendEqualAmountsETHBody, hfee0]
  simp only [Nat.sub_zero]
  rw [if_neg hn, if_neg hn2', if_neg hv, if_neg (show ¬ msgValue ≤ 0 by omega), if_neg hper]
  have hstep : feeStep ethOk stE = (stE, [], []) := by
    unfold feeStep
    rw [hfee0]
    simp
  simp only [hstep]
  have hz' : ∀ p ∈ recipients.map (fun r => (r, msgValue / recipients.length)),
      true = true → p.1 ≠ 0 := by
    intro p hp _
    obtain ⟨r, hr, rfl⟩ := List.mem_map.mp hp
    exact hz r hr
  have hb' : amountSum (recipients.map (fun r => (r, msgValue / recipients.length)))
      ≤ stE.balance := by
    rw [amountSum_map_const]
    calc recipients.length * (msgValue / recipients.length)
        = msgValue / recipients.length * recipients.length := Nat.mul_comm _ _
      _ ≤ msgValue := Nat.div_mul_le_self _ _
      _ ≤ stE.balance := hb
  rw [transferSeq_ok ethOk true _ stE hz' hb']
  simp [okFilter, failEvents, rPairs]

theorem sendEqualAmountsETHBody_allOk (sender msgValue : Nat)
    (recipients : List Nat) (stE : EngineState)
    (hn : recipients.length ≠ 0) (hn2 : recipients.length ≤ 200)
    (hz : ∀ r ∈ recipients, r ≠ 0)
    (hfee : getCurrentFee stE < msgValue)
    (hper : (msgValue - getCurrentFee stE) / recipients.length ≠ 0)
    (hb : msgValue ≤ stE.balance) :
    sendEqualAmountsETHBody ethOkAll sender msgValue recipients stE =
      .ok { state := { stE with
              balance := stE.balance - getCurrentFee stE -
                           recipients.length *
                             ((msgValue - getCurrentFee stE) / recipients.length) },
            events := [Event.MultiTransferETH sender msgValue (getCurrentFee stE)
                         recipients.length],
            sent := (if 0 < getCurrentFee stE
                     then [(stE.config.feeCollector, getCurrentFee stE)] else []) ++
                      rPairs recipients ((msgValue - getCurrentFee stE) / recipients.length),
            tokenPulled := 0, tokenSent := [] } := by
  have hn2' : ¬ 200 < recipients.length := by omega
  have hv : ¬ msgValue = 0 := by omega
  have hfe : ¬ msgValue ≤ getCurrentFee stE := by omega
  rw [sendEqualAmountsETHBody, if_neg hn, if_neg hn2', if_neg hv, if_neg hfe, if_neg hper]
  have hz' : ∀ p ∈ recipients.map
      (fun r => (r, (msgValue - getCurrentFee stE) / recipients.length)),
      true = true → p.1 ≠ 0 := by
    intro p hp _
    obtain ⟨r, hr, rfl⟩ := List.mem_map.mp hp
    exact hz r hr
  have hq : (msgValue - getCurrentFee stE) / recipients.length * recipients.length
      ≤ msgValue - getCurrentFee stE := Nat.div_mul_le_self _ _
  by_cases hF : 0 < getCurrentFee stE
  · have hstep : feeStep ethOkAll stE =
        ({ stE with balance := stE.balance - getCurrentFee stE }, [],
         [(stE.config.feeCollector, getCurrentFee stE)]) := by
      unfold feeStep _safeTransferETH
      rw [if_pos hF, if_pos ⟨by omega, rfl⟩]
    simp only [hstep]
    have hb' : amountSum (recipients.map
        (fun r => (r, (msgValue - getCurrentFee stE) / recipients.length)))
        ≤ stE.balance - getCurrentFee stE := by
      rw [amountSum_map_const]
      calc recipients.length * ((msgValue - getCurrentFee stE) / recipients.length)
          = (msgValue - getCurrentFee stE) / recipients.length * recipients.length :=
            Nat.mul_comm _ _
        _ ≤ msgValue - getCurrentFee stE := hq
        _ ≤ stE.balance - getCurrentFee stE := by omega
    rw [transferSeq_ok _ true _ _ hz' hb']
    simp [rPairs, ethOkAll, amountSum_map_const, if_pos hF]
  · have hF0 : getCurrentFee stE = 0 := by omega
    have hstep : feeStep ethOkAll stE = (stE, [], []) := by
      unfold feeStep
      rw [if_neg hF]
    simp only [hstep]
    have hb' : amountSum (recipients.map
        (fun r => (r, (msgValue - getCurrentFee stE) / recipients.length)))
        ≤ stE.balance := by
      rw [amountSum_map_const]
      calc recipients.length * ((msgValue - getCurrentFee stE) / recipients.length)
          = (msgValue - getCurrentFee stE) / recipients.length * recipients.length :=
            Nat.mul_comm _ _
        _ ≤ msgValue - getCurrentFee stE := hq
        _ ≤ stE.balance := by omega
    rw [transferSeq_ok _ true _ _ hz' hb']
    simp [rPairs, ethOkAll, amountSum_map_const, if_neg hF, hF0]

theorem sendDifferentAmountsETHBody_insufficient (ethOk : Nat → Nat → Bool)
    (sender msgValue : Nat) (recipients amounts : List Nat) (stE : EngineState)
    (hn : recipients.length ≠ 0) (hn2 : recipients.length ≤ 200)
    (hlen : recipients.length = amounts.length)
    (hz : ∀ p ∈ recipients.zip amounts, p.1 ≠ 0)
    (ha : ∀ p ∈ recipients.zip amounts, 0 < p.2)
    (ho : amountSum (recipients.zip amounts) + getCurrentFee stE < UINT_LIMIT)
    (hv : msgValue < amountSum (recipients.zip amounts) + getCurrentFee stE) :
    sendDifferentAmountsETHBody ethOk sender msgValue recipients amounts stE =
      .error .insufficientETHSent := by
  have hn2' : ¬ 200 < recipients.length := by omega
  rw [sendDifferentAmountsETHBody, if_neg hn, if_neg hn2',
    if_neg (show ¬ recipients.length ≠ amounts.length from by omega)]
  rw [validateAmounts_ok _ 0 hz ha (by omega)]
  simp only [Nat.zero_add]
  rw [if_neg (show ¬ UINT_LIMIT ≤ amountSum (recipients.zip amounts) + getCurrentFee stE
    from by omega), if_pos hv]

theorem feeStep_allOk (st : EngineState) (hb : getCurrentFee st ≤ st.balance) :
    feeStep ethOkAll st =
      ({ st with balance := st.balance - getCurrentFee st }, [],
       if 0 < getCurrentFee st then [(st.config.feeCollector, getCurrentFee st)] else []) := by
  by_cases hF : 0 < getCurrentFee st
  · unfold feeStep _safeTransferETH
    rw [if_pos hF, if_pos ⟨hb, rfl⟩, if_pos hF]
  · have h0 : getCurrentFee st = 0 := by omega
    unfold feeStep
    rw [if_neg hF, if_neg hF]
    simp [h0]

theorem excessStep_allOk (st : EngineState) (sender excess : Nat)
    (hb : excess ≤ st.balance) :
    excessStep ethOkAll st sender excess =
      ({ st with balance := st.balance - excess }, [],
       if 0 < excess then [(sender, excess)] else []) := by
  by_cases hE : 0 < excess
  · unfold excessStep _safeTransferETH
    rw [if_pos hE, if_pos ⟨hb, rfl⟩, if_pos hE]
  · have h0 : excess = 0 := by omega
    unfold excessStep
    rw [if_neg hE, if_neg hE]
    simp [h0]

theorem sendDifferentAmountsETHBody_allOk (sender msgValue : Nat)
    (recipients amounts : List Nat) (stE : EngineState)
    (hn : recipients.length ≠ 0) (hn2 : recipients.length ≤ 200)
    (hlen : recipients.length = amounts.length)
    (hz : ∀ p ∈ recipients.zip amounts, p.1 ≠ 0)
    (ha : ∀ p ∈ recipients.zip amounts, 0 < p.2)
    (ho : amountSum (recipients.zip amounts) + getCurrentFee stE < UINT_LIMIT)
    (hv : amountSum (recipients.zip amounts) + getCurrentFee stE ≤ msgValue)
    (hb : msgValue ≤ stE.balance) :
    sendDifferentAmountsETHBody ethOkAll sender msgValue recipients amounts stE =
      .ok { state := { stE with balance := stE.balance - msgValue },
            events := [Event.MultiTransferETH sender (amountSum (recipients.zip amounts))
                         (getCurrentFee stE) recipients.length],
            sent := (if 0 < getCurrentFee stE
                     then [(stE.config.feeCollector, getCurrentFee stE)] else []) ++
                      recipients.zip amounts ++
                      (if 0 < msgValue - (amountSum (recipients.zip amounts) + getCurrentFee stE)
                       then [(sender,
                               msgValue - (amountSum (recipients.zip amounts) +
                                 getCurrentFee stE))]
                       else []),
            tokenPulled := 0, tokenSent := [] } := by
  have hn2' : ¬ 200 < recipients.length := by omega
  rw [sendDifferentAmountsETHBody, if_neg hn, if_neg hn2',
    if_neg (show ¬ recipients.length ≠ amounts.length from by omega)]
  rw [validateAmounts_ok _ 0 hz ha (by omega)]
  simp only [Nat.zero_add]
  rw [if_neg (show ¬ UINT_LIMIT ≤ amountSum (recipients.zip amounts) + getCurrentFee stE
    from by omega),
    if_neg (show ¬ msgValue < amountSum (recipients.zip amounts) + getCurrentFee stE
    from by omega)]
  have hz' : ∀ p ∈ recipients.zip amounts, false = true → p.1 ≠ 0 := by
    intro p _ h
    exact absurd h (by simp)
  rw [feeStep_allOk stE (by omega)]
  dsimp only
  rw [transferSeq_ok _ false _ _ hz' (by dsimp only; omega)]
  dsimp only
  have hfilt : (recipients.zip amounts).filter (fun p => ethOkAll p.1 p.2) =
      recipients.zip amounts := by
    simp [ethOkAll]
  rw [hfilt]
  rw [excessStep_allOk _ sender (msgValue - (amountSum (recipients.zip amounts) +
    getCurrentFee stE)) (by dsimp only; omega)]
  dsimp only
  simp only [ethOkAll]
  simp only [Bool.not_true, List.filter_false, List.map_nil, List.nil_append,
    List.append_nil, Except.ok.injEq, CallOut.mk.injEq, EngineState.mk.injEq,
    eq_self_iff_true, and_true, true_and]
  omega

theorem sendEqualAmountsERC20Body_allOk (ethOk tokOk : Nat → Nat → Bool)
    (sender msgValue token totalAmount : Nat) (recipients : List Nat) (stE : EngineState)
    (htok : token ≠ 0) (hn : recipients.length ≠ 0) (hn2 : recipients.length ≤ 200)
    (hta : totalAmount ≠ 0) (hfee : getCurrentFee stE ≤ msgValue)
    (hper : totalAmount / recipients.length ≠ 0)
    (hz : ∀ r ∈ recipients, r ≠ 0)
    (hs : ∀ r a, tokOk r a = true) :
    sendEqualAmountsERC20Body ethOk true tokOk sender msgValue token totalAmount recipients stE =
      .ok { state := (excessStep ethOk (feeStep ethOk stE).1 sender
              (msgValue - getCurrentFee stE)).1,
            events := (feeStep ethOk stE).2.1 ++
                        (excessStep ethOk (feeStep ethOk stE).1 sender
                          (msgValue - getCurrentFee stE)).2.1 ++
                        [Event.MultiTransferERC20 sender token totalAmount
                          (getCurrentFee stE) recipients.length],
            sent := (feeStep ethOk stE).2.2 ++
                      (excessStep ethOk (feeStep ethOk stE).1 sender
                        (msgValue - getCurrentFee stE)).2.2,
            tokenPulled := totalAmount,
            tokenSent := rPairs recipients (totalAmount / recipients.length) } := by
  rw [sendEqualAmountsERC20Body, if_neg htok, if_neg hn,
    if_neg (show ¬ 200 < recipients.length from by omega), if_neg hta,
    if_neg (show ¬ msgValue < getCurrentFee stE from by omega), if_neg hper]
  dsimp only
  rw [if_neg (show ¬ (true = false) from by simp)]
  have hz' : ∀ p ∈ recipients.map (fun r => (r, totalAmount / recipients.length)),
      true = true → p.1 ≠ 0 := by
    intro p hp _
    obtain ⟨r, hr, rfl⟩ := List.mem_map.mp hp
    exact hz r hr
  rw [tokenTransferSeq_ok tokOk true _ hz' (fun p _ => hs p.1 p.2)]
  rfl

theorem sendEqualAmountsERC20Body_pullFail (ethOk tokOk : Nat → Nat → Bool)
    (sender msgValue token totalAmount : Nat) (recipients : List Nat) (stE : EngineState)
    (htok : token ≠ 0) (hn : recipients.length ≠ 0) (hn2 : recipients.length ≤ 200)
    (hta : totalAmount ≠ 0) (hfee : getCurrentFee stE ≤ msgValue)
    (hper : totalAmount / recipients.length ≠ 0) :
    sendEqualAmountsERC20Body ethOk false tokOk sender msgValue token totalAmount recipients stE =
      .error .tokenTransferFailed := by
  rw [sendEqualAmountsERC20Body, if_neg htok, if_neg hn,
    if_neg (show ¬ 200 < recipients.length from by omega), if_neg hta,
    if_neg (show ¬ msgValue < getCurrentFee stE from by omega), if_neg hper]
  dsimp only
  rw [if_pos rfl]

theorem sendEqualAmountsERC20Body_transferFail (ethOk tokOk : Nat → Nat → Bool)
    (sender msgValue token totalAmount : Nat) (recipients : List Nat) (stE : EngineState)
    (htok : token ≠ 0) (hn : recipients.length ≠ 0) (hn2 : recipients.length ≤ 200)
    (hta : totalAmount ≠ 0) (hfee : getCurrentFee stE ≤ msgValue)
    (hper : totalAmount / recipients.length ≠ 0)
    (hz : ∀ r ∈ recipients, r ≠ 0)
    (hf : ∃ r ∈ recipients, tokOk r (totalAmount / recipients.length) = false) :
    sendEqualAmountsERC20Body ethOk true tokOk sender msgValue token totalAmount recipients stE =
      .error .transferFailed := by
  rw [sendEqualAmountsERC20Body, if_neg htok, if_neg hn,
    if_neg (show ¬ 200 < recipients.length from by omega), if_neg hta,
    if_neg (show ¬ msgValue < getCurrentFee stE from by omega), if_neg hper]
  dsimp only
  rw [if_neg (show ¬ (true = false) from by simp)]
  have hz' : ∀ p ∈ recipients.map (fun r => (r, totalAmount / recipients.length)),
      true = true → p.1 ≠ 0 := by
    intro p hp _
    obtain ⟨r, hr, rfl⟩ := List.mem_map.mp hp
    exact hz r hr
  have hf' : ∃ p ∈ recipients.map (fun r => (r, totalAmount / recipients.length)),
      tokOk p.1 p.2 = false := by
    obtain ⟨r, hr, hfr⟩ := hf
    exact ⟨(r, totalAmount / recipients.length), List.mem_map_of_mem _ hr, hfr⟩
  rw [tokenTransferSeq_fail tokOk true _ hz' hf']

theorem sendDifferentAmountsERC20Body_pullFail (ethOk tokOk : Nat → Nat → Bool)
    (sender msgValue token : Nat) (recipients amounts : List Nat) (stE : EngineState)
    (htok : token ≠ 0) (hn : recipients.length ≠ 0) (hn2 : recipients.length ≤ 200)
    (hlen : recipients.length = amounts.length)
    (hfee : getCurrentFee stE ≤ msgValue)
    (hz : ∀ p ∈ recipients.zip amounts, p.1 ≠ 0)
    (ha : ∀ p ∈ recipients.zip amounts, 0 < p.2)
    (ho : amountSum (recipients.zip amounts) < UINT_LIMIT) :
    sendDifferentAmountsERC20Body ethOk false tokOk sender msgValue token recipients amounts stE =
      .error .tokenTransferFailed := by
  rw [sendDifferentAmountsERC20Body, if_neg htok, if_neg hn,
    if_neg (show ¬ 200 < recipients.length from by omega),
    if_neg (show ¬ recipients.length ≠ amounts.length from by omega),
    if_neg (show ¬ msgValue < getCurrentFee stE from by omega)]
  rw [validateAmounts_ok _ 0 hz ha (by omega)]
  dsimp only
  rw [if_pos rfl]

theorem sendDifferentAmountsERC20Body_transferFail (ethOk tokOk : Nat → Nat → Bool)
    (sender msgValue token : Nat) (recipients amounts : List Nat) (stE : EngineState)
    (htok : token ≠ 0) (hn : recipients.length ≠ 0) (hn2 : recipients.length ≤ 200)
    (hlen : recipients.length = amounts.length)
    (hfee : getCurrentFee stE ≤ msgValue)
    (hz : ∀ p ∈ recipients.zip amounts, p.1 ≠ 0)
    (ha : ∀ p ∈ recipients.zip amounts, 0 < p.2)
    (ho : amountSum (recipients.zip amounts) < UINT_LIMIT)
    (hf : ∃ p ∈ recipients.zip amounts, tokOk p.1 p.2 = false) :
    sendDifferentAmountsERC20Body ethOk true tokOk sender msgValue token recipients amounts stE =
      .error .transferFailed := by
  rw [sendDifferentAmountsERC20Body, if_neg htok, if_neg hn,
    if_neg (show ¬ 200 < recipients.length from by omega),
    if_neg (show ¬ recipients.length ≠ amounts.length from by omega),
    if_neg (show ¬ msgValue < getCurrentFee stE from by omega)]
  rw [validateAmounts_ok _ 0 hz ha (by omega)]
  dsimp only
  rw [if_neg (show ¬ (true = false) from by simp)]
  have hz' : ∀ p ∈ recipients.zip amounts, false = true → p.1 ≠ 0 := by
    intro p _ h
    exact absurd h (by simp)
  rw [tokenTransferSeq_fail tokOk false _ hz' hf]

theorem guarded_error_cases (body : EngineState → Except SolError CallOut)
    (st : EngineState) (e : SolError) (h : guarded body st = .error e) :
    e = .reentrant ∨ body { st with status := ENTERED } = .error e := by
  unfold guarded at h
  split at h
  · injection h with h2
    exact Or.inl h2.symm
  · split at h
    · cases h
    · rename_i e' heq
      injection h with h2
      subst h2
      exact Or.inr heq

theorem sendEqualAmountsETHBody_no_size_error (ethOk : Nat → Nat → Bool)
    (sender msgValue : Nat) (recipients : List Nat) (stE : EngineState) (e : SolError)
    (h200 : recipients.length = 200)
    (h : sendEqualAmountsETHBody ethOk sender msgValue recipients stE = .error e) :
    e ≠ .noRecipients ∧ e ≠ .tooManyRecipients := by
  rw [sendEqualAmountsETHBody, if_neg (show ¬ recipients.length = 0 from by omega),
    if_neg (show ¬ 200 < recipients.length from by omega)] at h
  dsimp only at h
  split at h
  · injection h with h2; subst h2; decide
  · split at h
    · injection h with h2; subst h2; decide
    · split at h
      · injection h with h2; subst h2; decide
      · split at h
        · rename_i e' heq
          injection h with h2
          subst h2
          rw [transferSeq_error _ _ _ _ _ heq]
          decide
        · simp at h

theorem sendDifferentAmountsETHBody_no_size_error (ethOk : Nat → Nat → Bool)
    (sender msgValue : Nat) (recipients amounts : List Nat) (stE : EngineState) (e : SolError)
    (h200 : recipients.length = 200)
    (h : sendDifferentAmountsETHBody ethOk sender msgValue recipients amounts stE = .error e) :
    e ≠ .noRecipients ∧ e ≠ .tooManyRecipients := by
  rw [sendDifferentAmountsETHBody, if_neg (show ¬ recipients.length = 0 from by omega),
    if_neg (show ¬ 200 < recipients.length from by omega)] at h
  dsimp only at h
  split at h
  · injection h with h2; subst h2; decide
  · split at h
    · rename_i e' heq
      injection h with h2
      subst h2
      rcases validateAmounts_error _ _ _ heq with h3 | h3 | h3 <;> (subst h3; decide)
    · split at h
      · injection h with h2; subst h2; decide
      · split at h
        · injection h with h2; subst h2; decide
        · split at h
          · rename_i e' heq
            injection h with h2
            subst h2
            rw [transferSeq_error _ _ _ _ _ heq]
            decide
          · simp at h

theorem sendEqualAmountsERC20Body_no_size_error (ethOk : Nat → Nat → Bool) (pullOk : Bool)
    (tokOk : Nat → Nat → Bool) (sender msgValue token totalAmount : Nat)
    (recipients : List Nat) (stE : EngineState) (e : SolError)
    (h200 : recipients.length = 200)
    (h : sendEqualAmountsERC20Body ethOk pullOk tokOk sender msgValue token totalAmount
      recipients stE = .error e) :
    e ≠ .noRecipients ∧ e ≠ .tooManyRecipients := by
  rw [sendEqualAmountsERC20Body, if_neg (show ¬ recipients.length = 0 from by omega),
    if_neg (show ¬ 200 < recipients.length from by omega)] at h
  dsimp only at h
  split at h
  · injection h with h2; subst h2; decide
  · split at h
    · injection h with h2; subst h2; decide
    · split at h
      · injection h with h2; subst h2; decide
      · split at h
        · injection h with h2; subst h2; decide
        · split at h
          · injection h with h2; subst h2; decide
          · split at h
            · rename_i e' heq
              injection h with h2
              subst h2
              rcases tokenTransferSeq_error _ _ _ _ heq with h3 | h3 <;> (subst h3; decide)
            · simp at h

theorem sendDifferentAmountsERC20Body_no_size_error (ethOk : Nat → Nat → Bool) (pullOk : Bool)
    (tokOk : Nat → Nat → Bool) (sender msgValue token : Nat)
    (recipients amounts : List Nat) (stE : EngineState) (e : SolError)
    (h200 : recipients.length = 200)
    (h : sendDifferentAmountsERC20Body ethOk pullOk tokOk sender msgValue token
      recipients amounts stE = .error e) :
    e ≠ .noRecipients ∧ e ≠ .tooManyRecipients := by
  rw [sendDifferentAmountsERC20Body, if_neg (show ¬ recipients.length = 0 from by omega),
    if_neg (show ¬ 200 < recipients.length from by omega)] at h
  dsimp only at h
  split at h
  · injection h with h2; subst h2; decide
  · split at h
    · injection h with h2; subst h2; decide
    · split at h
      · injection h with h2; subst h2; decide
      · split at h
        · rename_i e' heq
          injection h with h2
          subst h2
          rcases validateAmounts_error _ _ _ heq with h3 | h3 | h3 <;> (subst h3; decide)
        · split at h
          · injection h with h2; subst h2; decide
          · split at h
            · rename_i e' heq
              injection h with h2
              subst h2
              rcases tokenTransferSeq_error _ _ _ _ heq with h3 | h3 <;> (subst h3; decide)
            · simp at h

/-- C1 (as stated, refuted at a concrete input): a valid equal-split native
batch with V = 10, fee disabled, 3 recipients pays each recipient
floor(10/3) = 3, but the remainder 1 is NOT sent back to the caller
(address 7): the call succeeds, no transfer to 7 occurs, and the
remainder stays in the engine balance. -/
theorem c1_counterexample :
    sendEqualAmountsETH ethOkAll 7 10 [1, 2, 3] st0 =
      .ok { state := { st0 with balance := 1 },
            events := [Event.MultiTransferETH 7 10 0 3],
            sent := [(1, 3), (2, 3), (3, 3)],
            tokenPulled := 0, tokenSent := [] } ∧
    (10 - getCurrentFee st0) % 3 = 1 ∧
    sentTo 7 [(1, 3), (2, 3), (3, 3)] = 0 := by
  refine ⟨rfl, rfl, rfl⟩

/-- C1 (amended): for every equal-split native batch with funding V, fee F
(0 if fees disabled) and N recipients that passes validation, with every
low-level transfer succeeding, each recipient is sent exactly
floor((V - F) / N); the floor-division remainder (V - F) mod N is NOT
refunded to the caller within the call - it remains in the engine's own
balance (the caller, being neither a recipient nor the fee collector,
receives nothing). -/
theorem c1_equal_split_remainder_retained (sender msgValue : Nat)
    (recipients : List Nat) (st : EngineState)
    (hst : st.status ≠ ENTERED)
    (hn : recipients.length ≠ 0) (hn2 : recipients.length ≤ 200)
    (hz : ∀ r ∈ recipients, r ≠ 0)
    (hfee : getCurrentFee st < msgValue)
    (hper : (msgValue - getCurrentFee st) / recipients.length ≠ 0)
    (hns : sender ∉ recipients) (hnf : sender ≠ st.config.feeCollector) :
    ∃ out, sendEqualAmountsETH ethOkAll sender msgValue recipients st = .ok out ∧
      out.sent = (if 0 < getCurrentFee st
                  then [(st.config.feeCollector, getCurrentFee st)] else []) ++
                   rPairs recipients ((msgValue - getCurrentFee st) / recipients.length) ∧
      out.state.balance = st.balance + (msgValue - getCurrentFee st) % recipients.length ∧
      sentTo sender out.sent = 0 := by
  have hbody := sendEqualAmountsETHBody_allOk sender msgValue recipients
    { config := st.config, status := ENTERED, balance := st.balance + msgValue }
    hn hn2 hz hfee hper (Nat.le_add_left _ _)
  refine ⟨_, guarded_ok _ { st with balance := st.balance + msgValue } _ hst hbody, rfl, ?_, ?_⟩
  · show st.balance + msgValue - getCurrentFee st -
        recipients.length * ((msgValue - getCurrentFee st) / recipients.length) =
      st.balance + (msgValue - getCurrentFee st) % recipients.length
    have hmod := Nat.mod_add_div (msgValue - getCurrentFee st) recipients.length
    omega
  · have h1 : sentTo sender ((if 0 < getCurrentFee st
        then [(st.config.feeCollector, getCurrentFee st)] else []) ++
          rPairs recipients ((msgValue - getCurrentFee st) / recipients.length)) = 0 := by
      rw [sentTo_append]
      have ha2 : sentTo sender (if 0 < getCurrentFee st
          then [(st.config.feeCollector, getCurrentFee st)] else []) = 0 := by
        split
        · refine sentTo_eq_zero _ _ ?_
          intro p hp
          simp only [List.mem_singleton] at hp
          subst hp
          exact fun hh => hnf hh.symm
        · rfl
      have hb2 : sentTo sender
          (rPairs recipients ((msgValue - getCurrentFee st) / recipients.length)) = 0 := by
        refine sentTo_eq_zero _ _ ?_
        intro p hp
        obtain ⟨r, hr, rfl⟩ := List.mem_map.mp hp
        intro hcontra
        exact hns (hcontra ▸ hr)
      omega
    exact h1

theorem guarded_ok_status (body : EngineState → Except SolError CallOut)
    (st : EngineState) (out : CallOut) (h : guarded body st = .ok out) :
    out.state.status = NOT_ENTERED := by
  unfold guarded at h
  split at h
  · cases h
  · split at h
    · injection h with h2
      subst h2
      rfl
    · cases h

theorem amountSum_zip (recipients amounts : List Nat)
    (hlen : recipients.length = amounts.length) :
    amountSum (recipients.zip amounts) = amounts.sum := by
  unfold amountSum
  rw [List.map_snd_zip recipients amounts (le_of_eq hlen.symm)]

/-- C2: every guarded entry point rejects a call made while the flag is
ENTERED with the reentrancy error and no state change; otherwise the body
runs on a state whose flag is ENTERED (so a reentrant inner guarded call
fails) and the flag is NOT_ENTERED again after the call completes on
every exit path; the four send operations and the two withdrawals are
exactly such guarded calls. -/
theorem c2_reentrancy_guard (body : EngineState → Except SolError CallOut)
    (st : EngineState) :
    (st.status = ENTERED → guarded body st = .error .reentrant ∧
      runCall (guarded body) st = st) ∧
    (st.status ≠ ENTERED →
      guarded body st =
        (match body { st with status := ENTERED } with
         | .ok out => .ok { out with state := { out.state with status := NOT_ENTERED } }
         | .error e => .error e)) ∧
    (∀ out, guarded body st = .ok out → out.state.status = NOT_ENTERED) ∧
    (st.status = NOT_ENTERED → (runCall (guarded body) st).status = NOT_ENTERED) ∧
    (∀ ethOk sender msgValue recipients,
      sendEqualAmountsETH ethOk sender msgValue recipients st =
        guarded (sendEqualAmountsETHBody ethOk sender msgValue recipients)
          { st with balance := st.balance + msgValue }) ∧
    (∀ ethOk sender msgValue recipients amounts,
      sendDifferentAmountsETH ethOk sender msgValue recipients amounts st =
        guarded (sendDifferentAmountsETHBody ethOk sender msgValue recipients amounts)
          { st with balance := st.balance + msgValue }) ∧
    (∀ ethOk pullOk tokOk sender msgValue token recipients totalAmount,
      sendEqualAmountsERC20 ethOk pullOk tokOk sender msgValue token recipients totalAmount st =
        guarded (sendEqualAmountsERC20Body ethOk pullOk tokOk sender msgValue token
          totalAmount recipients) { st with balance := st.balance + msgValue }) ∧
    (∀ ethOk pullOk tokOk sender msgValue token recipients amounts,
      sendDifferentAmountsERC20 ethOk pullOk tokOk sender msgValue token recipients amounts st =
        guarded (sendDifferentAmountsERC20Body ethOk pullOk tokOk sender msgValue token
          recipients amounts) { st with balance := st.balance + msgValue }) ∧
    (∀ ethOk sender amount, sender = st.config.owner →
      withdrawETH ethOk sender amount st = guarded (withdrawETHBody ethOk amount) st) ∧
    (∀ tokBalance tokOk sender token amount, sender = st.config.owner →
      withdrawERC20 tokBalance tokOk sender token amount st =
        guarded (withdrawERC20Body tokBalance tokOk token amount) st) := by
  refine ⟨?_, ?_, fun out h => guarded_ok_status body st out h, ?_,
    fun _ _ _ _ => rfl, fun _ _ _ _ _ => rfl, fun _ _ _ _ _ _ _ _ => rfl,
    fun _ _ _ _ _ _ _ _ => rfl, ?_, ?_⟩
  · intro h
    have he : guarded body st = .error .reentrant := by
      unfold guarded
      rw [if_pos h]
    exact ⟨he, runCall_error _ _ _ he⟩
  · intro h
    unfold guarded
    rw [if_neg h]
  · intro h
    unfold runCall
    split
    · rename_i out heq
      exact guarded_ok_status body st out heq
    · exact h
  · intro ethOk sender amount hown
    unfold withdrawETH
    rw [if_neg (not_not_intro hown)]
  · intro tokBalance tokOk sender token amount hown
    unfold withdrawERC20
    rw [if_neg (not_not_intro hown)]

theorem c2_witness :
    guarded okBody stEnteredEx = .error .reentrant ∧
    (runCall (guarded okBody) st0).status = NOT_ENTERED :=
  ⟨((c2_reentrancy_guard okBody stEnteredEx).1 rfl).1,
   (c2_reentrancy_guard okBody st0).2.2.2.1 rfl⟩

/-- C3: for every explicit-amounts native batch that passes the per-entry
validation: if sum(amounts) + fee exceeds the supplied funding the whole
call aborts with the insufficient-funding error and no state changes;
otherwise (with all transfers succeeding and the caller neither a
recipient nor the fee collector) the call succeeds and the excess
refunded to the caller equals funding - sum(amounts) - fee exactly. -/
theorem c3_explicit_amounts_funding (ethOk : Nat → Nat → Bool) (sender msgValue : Nat)
    (recipients amounts : List Nat) (st : EngineState)
    (hst : st.status ≠ ENTERED)
    (hn : recipients.length ≠ 0) (hn2 : recipients.length ≤ 200)
    (hlen : recipients.length = amounts.length)
    (hz : ∀ p ∈ recipients.zip amounts, p.1 ≠ 0)
    (ha : ∀ p ∈ recipients.zip amounts, 0 < p.2)
    (ho : amounts.sum + getCurrentFee st < UINT_LIMIT) :
    (msgValue < amounts.sum + getCurrentFee st →
      sendDifferentAmountsETH ethOk sender msgValue recipients amounts st =
        .error .insufficientETHSent ∧
      runCall (sendDifferentAmountsETH ethOk sender msgValue recipients amounts) st = st) ∧
    (amounts.sum + getCurrentFee st ≤ msgValue →
      sender ∉ recipients → sender ≠ st.config.feeCollector →
      ∃ out, sendDifferentAmountsETH ethOkAll sender msgValue recipients amounts st = .ok out ∧
        sentTo sender out.sent = msgValue - (amounts.sum + getCurrentFee st)) := by
  have hS := amountSum_zip recipients amounts hlen
  constructor
  · intro hv
    have he : sendDifferentAmountsETH ethOk sender msgValue recipients amounts st =
        .error .insufficientETHSent := by
      unfold sendDifferentAmountsETH
      exact guarded_err _ _ _ hst
        (sendDifferentAmountsETHBody_insufficient ethOk sender msgValue recipients amounts
          { config := st.config, status := ENTERED, balance := st.balance + msgValue }
          hn hn2 hlen hz ha (by rw [hS]; exact ho) (by rw [hS]; exact hv))
    exact ⟨he, runCall_error _ _ _ he⟩
  · intro hv hns hnf
    have hbody := sendDifferentAmountsETHBody_allOk sender msgValue recipients amounts
      { config := st.config, status := ENTERED, balance := st.balance + msgValue }
      hn hn2 hlen hz ha (by rw [hS]; exact ho) (by rw [hS]; exact hv) (Nat.le_add_left _ _)
    refine ⟨_, guarded_ok _ { st with balance := st.balance + msgValue } _ hst hbody, ?_⟩
    have h1 : sentTo sender ((if 0 < getCurrentFee st
        then [(st.config.feeCollector, getCurrentFee st)] else []) ++
          recipients.zip amounts ++
          (if 0 < msgValue - (amountSum (recipients.zip amounts) + getCurrentFee st)
           then [(sender, msgValue - (amountSum (recipients.zip amounts) + getCurrentFee st))]
           else [])) = msgValue - (amounts.sum + getCurrentFee st) := by
      rw [sentTo_append, sentTo_append]
      have ha2 : sentTo sender (if 0 < getCurrentFee st
          then [(st.config.feeCollector, getCurrentFee st)] else []) = 0 := by
        split
        · refine sentTo_eq_zero _ _ ?_
          intro p hp
          simp only [List.mem_singleton] at hp
          subst hp
          exact fun hh => hnf hh.symm
        · rfl
      have hb2 : sentTo sender (recipients.zip amounts) = 0 := by
        refine sentTo_eq_zero _ _ ?_
        intro p hp
        obtain ⟨a, b⟩ := p
        intro hcontra
        exact hns (hcontra ▸ (List.of_mem_zip hp).1)
      have hc2 : sentTo sender
          (if 0 < msgValue - (amountSum (recipients.zip amounts) + getCurrentFee st)
           then [(sender, msgValue - (amountSum (recipients.zip amounts) + getCurrentFee st))]
           else []) = msgValue - (amounts.sum + getCurrentFee st) := by
        rw [hS]
        split
        · rw [sentTo_cons, if_pos rfl]
          simp [sentTo]
        · simp [sentTo]
          omega
      omega
    exact h1

theorem c1_witness :
    ∃ out, sendEqualAmountsETH ethOkAll 7 10 [1, 2, 3] st0 = .ok out ∧
      out.sent = (if 0 < getCurrentFee st0
                  then [(st0.config.feeCollector, getCurrentFee st0)] else []) ++
                   rPairs [1, 2, 3] ((10 - getCurrentFee st0) / [1, 2, 3].length) ∧
      out.state.balance = st0.balance + (10 - getCurrentFee st0) % [1, 2, 3].length ∧
      sentTo 7 out.sent = 0 :=
  c1_equal_split_remainder_retained 7 10 [1, 2, 3] st0 (by decide) (by decide) (by decide)
    (by decide) (by decide) (by decide) (by decide) (by decide)

theorem c3_witness :
    (sendDifferentAmountsETH ethOkAll 7 8 [1, 2] [4, 5] st0 = .error .insufficientETHSent ∧
      runCall (sendDifferentAmountsETH ethOkAll 7 8 [1, 2] [4, 5]) st0 = st0) ∧
    (∃ out, sendDifferentAmountsETH ethOkAll 7 12 [1, 2] [4, 5] st0 = .ok out ∧
      sentTo 7 out.sent = 12 - ([4, 5].sum + getCurrentFee st0)) :=
  ⟨(c3_explicit_amounts_funding ethOkAll 7 8 [1, 2] [4, 5] st0 (by decide) (by decide)
      (by decide) (by decide) (by decide) (by decide) (by decide)).1 (by decide),
   (c3_explicit_amounts_funding ethOkAll 7 12 [1, 2] [4, 5] st0 (by decide) (by decide)
      (by decide) (by decide) (by decide) (by decide) (by decide)).2 (by decide)
      (by decide) (by decide)⟩

/-- C4: in the token paths, a failure of the delegated transferFrom pull of
the full batch total aborts the whole call with all state changes undone,
and a failure of any per-recipient direct token transfer also aborts the
whole call with all state changes undone - all-or-nothing, unlike the
native-asset path. -/
theorem c4_token_all_or_nothing (ethOk tokOk : Nat → Nat → Bool)
    (sender msgValue token totalAmount : Nat) (recipients amounts : List Nat)
    (st : EngineState)
    (hst : st.status ≠ ENTERED) (htok : token ≠ 0) :
    (recipients.length ≠ 0 → recipients.length ≤ 200 → totalAmount ≠ 0 →
      getCurrentFee st ≤ msgValue → totalAmount / recipients.length ≠ 0 →
      sendEqualAmountsERC20 ethOk false tokOk sender msgValue token recipients totalAmount st =
        .error .tokenTransferFailed ∧
      runCall (sendEqualAmountsERC20 ethOk false tokOk sender msgValue token recipients
        totalAmount) st = st) ∧
    (recipients.length ≠ 0 → recipients.length ≤ 200 → totalAmount ≠ 0 →
      getCurrentFee st ≤ msgValue → totalAmount / recipients.length ≠ 0 →
      (∀ r ∈ recipients, r ≠ 0) →
      (∃ r ∈ recipients, tokOk r (totalAmount / recipients.length) = false) →
      sendEqualAmountsERC20 ethOk true tokOk sender msgValue token recipients totalAmount st =
        .error .transferFailed ∧
      runCall (sendEqualAmountsERC20 ethOk true tokOk sender msgValue token recipients
        totalAmount) st = st) ∧
    (recipients.length ≠ 0 → recipients.length ≤ 200 →
      recipients.length = amounts.length → getCurrentFee st ≤ msgValue →
      (∀ p ∈ recipients.zip amounts, p.1 ≠ 0) → (∀ p ∈ recipients.zip amounts, 0 < p.2) →
      amountSum (recipients.zip amounts) < UINT_LIMIT →
      sendDifferentAmountsERC20 ethOk false tokOk sender msgValue token recipients amounts st =
        .error .tokenTransferFailed ∧
      runCall (sendDifferentAmountsERC20 ethOk false tokOk sender msgValue token recipients
        amounts) st = st) ∧
    (recipients.length ≠ 0 → recipients.length ≤ 200 →
      recipients.length = amounts.length → getCurrentFee st ≤ msgValue →
      (∀ p ∈ recipients.zip amounts, p.1 ≠ 0) → (∀ p ∈ recipients.zip amounts, 0 < p.2) →
      amountSum (recipients.zip amounts) < UINT_LIMIT →
      (∃ p ∈ recipients.zip amounts, tokOk p.1 p.2 = false) →
      sendDifferentAmountsERC20 ethOk true tokOk sender msgValue token recipients amounts st =
        .error .transferFailed ∧
      runCall (sendDifferentAmountsERC20 ethOk true tokOk sender msgValue token recipients
        amounts) st = st) := by
  refine ⟨?_, ?_, ?_, ?_⟩
  · intro h1 h2 h3 h4 h5
    have he : sendEqualAmountsERC20 ethOk false tokOk sender msgValue token recipients
        totalAmount st = .error .tokenTransferFailed := by
      unfold sendEqualAmountsERC20
      exact guarded_err _ _ _ hst
        (sendEqualAmountsERC20Body_pullFail ethOk tokOk sender msgValue token totalAmount
          recipients _ htok h1 h2 h3 h4 h5)
    exact ⟨he, runCall_error _ _ _ he⟩
  · intro h1 h2 h3 h4 h5 h6 h7
    have he : sendEqualAmountsERC20 ethOk true tokOk sender msgValue token recipients
        totalAmount st = .error .transferFailed := by
      unfold sendEqualAmountsERC20
      exact guarded_err _ _ _ hst
        (sendEqualAmountsERC20Body_transferFail ethOk tokOk sender msgValue token totalAmount
          recipients _ htok h1 h2 h3 h4 h5 h6 h7)
    exact ⟨he, runCall_error _ _ _ he⟩
  · intro h1 h2 h3 h4 h5 h6 h7
    have he : sendDifferentAmountsERC20 ethOk false tokOk sender msgValue token recipients
        amounts st = .error .tokenTransferFailed := by
      unfold sendDifferentAmountsERC20
      exact guarded_err _ _ _ hst
        (sendDifferentAmountsERC20Body_pullFail ethOk tokOk sender msgValue token recipients
          amounts _ htok h1 h2 h3 h4 h5 h6 h7)
    exact ⟨he, runCall_error _ _ _ he⟩
  · intro h1 h2 h3 h4 h5 h6 h7 h8
    have he : sendDifferentAmountsERC20 ethOk true tokOk sender msgValue token recipients
        amounts st = .error .transferFailed := by
      unfold sendDifferentAmountsERC20
      exact guarded_err _ _ _ hst
        (sendDifferentAmountsERC20Body_transferFail ethOk tokOk sender msgValue token recipients
          amounts _ htok h1 h2 h3 h4 h5 h6 h7 h8)
    exact ⟨he, runCall_error _ _ _ he⟩

theorem c4_witness :
    (sendEqualAmountsERC20 ethOkAll false tokOkAll 7 0 5 [1, 2, 3] 10 st0 =
        .error .tokenTransferFailed ∧
      runCall (sendEqualAmountsERC20 ethOkAll false tokOkAll 7 0 5 [1, 2, 3] 10) st0 = st0) ∧
    (sendEqualAmountsERC20 ethOkAll true tokOkNot2 7 0 5 [1, 2, 3] 10 st0 =
        .error .transferFailed ∧
      runCall (sendEqualAmountsERC20 ethOkAll true tokOkNot2 7 0 5 [1, 2, 3] 10) st0 = st0) :=
  ⟨(c4_token_all_or_nothing ethOkAll tokOkAll 7 0 5 10 [1, 2, 3] [] st0 (by decide)
      (by decide)).1 (by decide) (by decide) (by decide) (by decide) (by decide),
   ((c4_token_all_or_nothing ethOkAll tokOkNot2 7 0 5 10 [1, 2, 3] [] st0 (by decide)
      (by decide)).2.1 (by decide) (by decide) (by decide) (by decide) (by decide)
      (by decide) ⟨2, by decide, by decide⟩)⟩

/-- C5: a failing gas-bounded native payout does not roll back, retry, or
abort the batch: the failed transfer merely emits TransferFailed and
leaves the amount in the engine balance, and an equal-split batch with
failing recipients still completes reporting success, pays the remaining
recipients, and retains exactly the undelivered amounts. -/
theorem c5_native_failure_isolated (ethOk : Nat → Nat → Bool) (sender msgValue : Nat)
    (recipients : List Nat) (st : EngineState)
    (hst : st.status ≠ ENTERED)
    (hn : recipients.length ≠ 0) (hn2 : recipients.length ≤ 200)
    (hz : ∀ r ∈ recipients, r ≠ 0)
    (hfee0 : getCurrentFee st = 0) (hv : msgValue ≠ 0)
    (hper : msgValue / recipients.length ≠ 0) :
    (∀ st' r a, ethOk r a = false →
      _safeTransferETH ethOk st' r a = (st', [Event.TransferFailed r a], [])) ∧
    (∃ out, sendEqualAmountsETH ethOk sender msgValue recipients st = .ok out ∧
      out.sent = okFilter ethOk (rPairs recipients (msgValue / recipients.length)) ∧
      out.events = failEvents ethOk (rPairs recipients (msgValue / recipients.length)) ++
        [Event.MultiTransferETH sender msgValue 0 recipients.length] ∧
      out.state.balance = st.balance + msgValue - amountSum out.sent) := by
  constructor
  · intro st' r a hf
    unfold _safeTransferETH
    rw [if_neg]
    rintro ⟨-, h2⟩
    rw [hf] at h2
    cases h2
  · have hbody := sendEqualAmountsETHBody_noFee ethOk sender msgValue recipients
      ⟨st.config, ENTERED, st.balance + msgValue⟩ hn hn2 hz hfee0 hv hper (Nat.le_add_left _ _)
    exact ⟨_, guarded_ok _ { st with balance := st.balance + msgValue } _ hst hbody,
      rfl, rfl, rfl⟩

theorem c5_witness :
    ∃ out, sendEqualAmountsETH ethOkNot2 7 9 [1, 2, 3] st0 = .ok out ∧
      out.sent = okFilter ethOkNot2 (rPairs [1, 2, 3] (9 / [1, 2, 3].length)) ∧
      out.events = failEvents ethOkNot2 (rPairs [1, 2, 3] (9 / [1, 2, 3].length)) ++
        [Event.MultiTransferETH 7 9 0 [1, 2, 3].length] ∧
      out.state.balance = st0.balance + 9 - amountSum out.sent :=
  (c5_native_failure_isolated ethOkNot2 7 9 [1, 2, 3] st0 (by decide) (by decide) (by decide)
    (by decide) (by decide) (by decide) (by decide)).2

/-- C6: every admin or recovery operation (toggleFees, setFlatFee,
setFeeCollector, withdrawETH, withdrawERC20) invoked by a caller
different from the owner fails with the not-owner error and leaves the
engine state unchanged. -/
theorem c6_only_owner (ethOk tokOk : Nat → Nat → Bool)
    (sender newFee newCollector amount token tokBalance : Nat) (st : EngineState)
    (hsd : sender ≠ st.config.owner) :
    (toggleFees sender st = .error .notOwner ∧ runCall (toggleFees sender) st = st) ∧
    (setFlatFee sender newFee st = .error .notOwner ∧
      runCall (setFlatFee sender newFee) st = st) ∧
    (setFeeCollector sender newCollector st = .error .notOwner ∧
      runCall (setFeeCollector sender newCollector) st = st) ∧
    (withdrawETH ethOk sender amount st = .error .notOwner ∧
      runCall (withdrawETH ethOk sender amount) st = st) ∧
    (withdrawERC20 tokBalance tokOk sender token amount st = .error .notOwner ∧
      runCall (withdrawERC20 tokBalance tokOk sender token amount) st = st) := by
  have h1 : toggleFees sender st = .error .notOwner := by
    unfold toggleFees
    rw [if_pos hsd]
  have h2 : setFlatFee sender newFee st = .error .notOwner := by
    unfold setFlatFee
    rw [if_pos hsd]
  have h3 : setFeeCollector sender newCollector st = .error .notOwner := by
    unfold setFeeCollector
    rw [if_pos hsd]
  have h4 : withdrawETH ethOk sender amount st = .error .notOwner := by
    unfold withdrawETH
    rw [if_pos hsd]
  have h5 : withdrawERC20 tokBalance tokOk sender token amount st = .error .notOwner := by
    unfold withdrawERC20
    rw [if_pos hsd]
  exact ⟨⟨h1, runCall_error _ _ _ h1⟩, ⟨h2, runCall_error _ _ _ h2⟩,
    ⟨h3, runCall_error _ _ _ h3⟩, ⟨h4, runCall_error _ _ _ h4⟩,
    ⟨h5, runCall_error _ _ _ h5⟩⟩

theorem c6_witness :
    (toggleFees 5 st0 = .error .notOwner ∧ runCall (toggleFees 5) st0 = st0) ∧
    (setFlatFee 5 1 st0 = .error .notOwner ∧ runCall (setFlatFee 5 1) st0 = st0) ∧
    (setFeeCollector 5 2 st0 = .error .notOwner ∧
      runCall (setFeeCollector 5 2) st0 = st0) ∧
    (withdrawETH ethOkAll 5 3 st0 = .error .notOwner ∧
      runCall (withdrawETH ethOkAll 5 3) st0 = st0) ∧
    (withdrawERC20 6 tokOkAll 5 4 3 st0 = .error .notOwner ∧
      runCall (withdrawERC20 6 tokOkAll 5 4 3) st0 = st0) :=
  c6_only_owner ethOkAll tokOkAll 5 1 2 3 4 6 st0 (by decide)

/-- C7: owner withdrawals: amount 0 means withdraw the entire balance;
the call fails with the no-funds error on a zero balance, with the
insufficient-balance error when a nonzero requested amount exceeds the
balance, and aborts with the withdrawal-failed error (state unchanged)
when the underlying transfer to the owner fails; same semantics for the
token withdrawal against the engine's token balance. -/
theorem c7_withdrawals (ethOk tokOk : Nat → Nat → Bool)
    (sender amount token tokBalance : Nat) (st : EngineState)
    (hown : sender = st.config.owner) (hst : st.status ≠ ENTERED) (htok : token ≠ 0) :
    (st.balance = 0 → withdrawETH ethOk sender amount st = .error .noFunds ∧
      runCall (withdrawETH ethOk sender amount) st = st) ∧
    (0 < st.balance → amount ≠ 0 → st.balance < amount →
      withdrawETH ethOk sender amount st = .error .insufficientBalance ∧
      runCall (withdrawETH ethOk sender amount) st = st) ∧
    (0 < st.balance → (amount = 0 ∨ amount ≤ st.balance) →
      ethOk st.config.owner (if amount = 0 then st.balance else amount) = false →
      withdrawETH ethOk sender amount st = .error .withdrawalFailed ∧
      runCall (withdrawETH ethOk sender amount) st = st) ∧
    (0 < st.balance → (amount = 0 ∨ amount ≤ st.balance) →
      ethOk st.config.owner (if amount = 0 then st.balance else amount) = true →
      ∃ out, withdrawETH ethOk sender amount st = .ok out ∧
        out.sent = [(st.config.owner, if amount = 0 then st.balance else amount)] ∧
        out.state.balance = st.balance - (if amount = 0 then st.balance else amount) ∧
        out.events = [Event.Withdrawal st.config.owner
          (if amount = 0 then st.balance else amount)]) ∧
    (tokBalance = 0 → withdrawERC20 tokBalance tokOk sender token amount st =
        .error .noTokens ∧
      runCall (withdrawERC20 tokBalance tokOk sender token amount) st = st) ∧
    (0 < tokBalance → amount ≠ 0 → tokBalance < amount →
      withdrawERC20 tokBalance tokOk sender token amount st =
        .error .insufficientTokenBalance ∧
      runCall (withdrawERC20 tokBalance tokOk sender token amount) st = st) ∧
    (0 < tokBalance → (amount = 0 ∨ amount ≤ tokBalance) →
      tokOk st.config.owner (if amount = 0 then tokBalance else amount) = false →
      withdrawERC20 tokBalance tokOk sender token amount st =
        .error .tokenWithdrawalFailed ∧
      runCall (withdrawERC20 tokBalance tokOk sender token amount) st = st) ∧
    (0 < tokBalance → (amount = 0 ∨ amount ≤ tokBalance) →
      tokOk st.config.owner (if amount = 0 then tokBalance else amount) = true →
      ∃ out, withdrawERC20 tokBalance tokOk sender token amount st = .ok out ∧
        out.tokenSent = [(st.config.owner, if amount = 0 then tokBalance else amount)] ∧
        out.state.balance = st.balance ∧ out.sent = []) := by
  have hwa : ∀ bal : Nat, 0 < bal → (amount = 0 ∨ amount ≤ bal) →
      ¬ bal < (if amount = 0 then bal else amount) := by
    intro bal hb hle
    rcases hle with h | h
    · rw [if_pos h]
      omega
    · by_cases h0 : amount = 0
      · rw [if_pos h0]
        omega
      · rw [if_neg h0]
        omega
  refine ⟨?_, ?_, ?_, ?_, ?_, ?_, ?_, ?_⟩
  · intro hbal
    have he : withdrawETH ethOk sender amount st = .error .noFunds := by
      unfold withdrawETH
      rw [if_neg (not_not_intro hown)]
      refine guarded_err _ _ _ hst ?_
      unfold withdrawETHBody
      dsimp only
      rw [if_pos hbal]
    exact ⟨he, runCall_error _ _ _ he⟩
  · intro hbal hne hlt
    have he : withdrawETH ethOk sender amount st = .error .insufficientBalance := by
      unfold withdrawETH
      rw [if_neg (not_not_intro hown)]
      refine guarded_err _ _ _ hst ?_
      unfold withdrawETHBody
      dsimp only
      rw [if_neg (by omega), if_neg hne, if_pos hlt]
    exact ⟨he, runCall_error _ _ _ he⟩
  · intro hbal hle hf
    have he : withdrawETH ethOk sender amount st = .error .withdrawalFailed := by
      unfold withdrawETH
      rw [if_neg (not_not_intro hown)]
      refine guarded_err _ _ _ hst ?_
      unfold withdrawETHBody
      dsimp only
      rw [if_neg (by omega), if_neg (hwa st.balance hbal hle), if_pos hf]
    exact ⟨he, runCall_error _ _ _ he⟩
  · intro hbal hle hs
    have hbody : withdrawETHBody ethOk amount { st with status := ENTERED } =
        .ok { state := { st with
                         status := ENTERED,
                         balance := st.balance -
                                      (if amount = 0 then st.balance else amount) },
              events := [Event.Withdrawal st.config.owner
                (if amount = 0 then st.balance else amount)],
              sent := [(st.config.owner, if amount = 0 then st.balance else amount)],
              tokenPulled := 0, tokenSent := [] } := by
      unfold withdrawETHBody
      dsimp only
      rw [if_neg (by omega), if_neg (hwa st.balance hbal hle),
        if_neg (show ¬ ethOk st.config.owner (if amount = 0 then st.balance else amount) =
          false from by rw [hs]; simp)]
    refine ⟨{ state := { st with
                         status := NOT_ENTERED,
                         balance := st.balance -
                                      (if amount = 0 then st.balance else amount) },
              events := [Event.Withdrawal st.config.owner
                (if amount = 0 then st.balance else amount)],
              sent := [(st.config.owner, if amount = 0 then st.balance else amount)],
              tokenPulled := 0, tokenSent := [] }, ?_, rfl, rfl, rfl⟩
    unfold withdrawETH
    rw [if_neg (not_not_intro hown)]
    exact guarded_ok _ _ _ hst hbody
  · intro hbal
    have he : withdrawERC20 tokBalance tokOk sender token amount st = .error .noTokens := by
      unfold withdrawERC20
      rw [if_neg (not_not_intro hown)]
      refine guarded_err _ _ _ hst ?_
      unfold withdrawERC20Body
      dsimp only
      rw [if_neg htok, if_pos hbal]
    exact ⟨he, runCall_error _ _ _ he⟩
  · intro hbal hne hlt
    have he : withdrawERC20 tokBalance tokOk sender token amount st =
        .error .insufficientTokenBalance := by
      unfold withdrawERC20
      rw [if_neg (not_not_intro hown)]
      refine guarded_err _ _ _ hst ?_
      unfold withdrawERC20Body
      dsimp only
      rw [if_neg htok, if_neg (by omega), if_neg hne, if_pos hlt]
    exact ⟨he, runCall_error _ _ _ he⟩
  · intro hbal hle hf
    have he : withdrawERC20 tokBalance tokOk sender token amount st =
        .error .tokenWithdrawalFailed := by
      unfold withdrawERC20
      rw [if_neg (not_not_intro hown)]
      refine guarded_err _ _ _ hst ?_
      unfold withdrawERC20Body
      dsimp only
      rw [if_neg htok, if_neg (by omega), if_neg (hwa tokBalance hbal hle), if_pos hf]
    exact ⟨he, runCall_error _ _ _ he⟩
  · intro hbal hle hs
    have hbody : withdrawERC20Body tokBalance tokOk token amount { st with status := ENTERED } =
        .ok { state := { st with status := ENTERED }, events := [], sent := [],
              tokenPulled := 0,
              tokenSent := [(st.config.owner, if amount = 0 then tokBalance else amount)] } := by
      unfold withdrawERC20Body
      dsimp only
      rw [if_neg htok, if_neg (by omega), if_neg (hwa tokBalance hbal hle),
        if_neg (show ¬ tokOk st.config.owner (if amount = 0 then tokBalance else amount) =
          false from by rw [hs]; simp)]
    refine ⟨{ state := { st with status := NOT_ENTERED }, events := [], sent := [],
              tokenPulled := 0,
              tokenSent := [(st.config.owner,
                if amount = 0 then tokBalance else amount)] }, ?_, rfl, rfl, rfl⟩
    unfold withdrawERC20
    rw [if_neg (not_not_intro hown)]
    exact guarded_ok _ _ _ hst hbody

theorem c7_witness :
    (withdrawETH ethOkAll 100 0 st0 = .error .noFunds ∧
      runCall (withdrawETH ethOkAll 100 0) st0 = st0) ∧
    (withdrawETH ethOkAll 100 50 st42 = .error .insufficientBalance ∧
      runCall (withdrawETH ethOkAll 100 50) st42 = st42) ∧
    (∃ out, withdrawETH ethOkAll 100 0 st42 = .ok out ∧
      out.sent = [(st42.config.owner, if (0 : Nat) = 0 then st42.balance else 0)] ∧
      out.state.balance = st42.balance - (if (0 : Nat) = 0 then st42.balance else 0) ∧
      out.events = [Event.Withdrawal st42.config.owner
        (if (0 : Nat) = 0 then st42.balance else 0)]) :=
  ⟨(c7_withdrawals ethOkAll tokOkAll 100 0 9 0 st0 (by decide) (by decide) (by decide)).1
      (by decide),
   (c7_withdrawals ethOkAll tokOkAll 100 50 9 0 st42 (by decide) (by decide) (by decide)).2.1
      (by decide) (by decide) (by decide),
   (c7_withdrawals ethOkAll tokOkAll 100 0 9 0 st42 (by decide) (by decide)
      (by decide)).2.2.2.1 (by decide) (Or.inl rfl) (by decide)⟩

/-- C8: for every batch-send operation (native and token, equal-split and
explicit-amounts): a batch with 0 recipients aborts with the empty-batch
error, a batch with 201 recipients aborts with the too-large error, and a
batch with exactly 200 recipients is not rejected for its size. -/
theorem c8_batch_bounds (ethOk tokOk : Nat → Nat → Bool) (pullOk : Bool)
    (sender msgValue token totalAmount : Nat) (recipients amounts : List Nat)
    (st : EngineState) (hst : st.status ≠ ENTERED) (htok : token ≠ 0) :
    (recipients.length = 0 →
      sendEqualAmountsETH ethOk sender msgValue recipients st = .error .noRecipients ∧
      sendDifferentAmountsETH ethOk sender msgValue recipients amounts st =
        .error .noRecipients ∧
      sendEqualAmountsERC20 ethOk pullOk tokOk sender msgValue token recipients
        totalAmount st = .error .noRecipients ∧
      sendDifferentAmountsERC20 ethOk pullOk tokOk sender msgValue token recipients
        amounts st = .error .noRecipients) ∧
    (recipients.length = 201 →
      sendEqualAmountsETH ethOk sender msgValue recipients st = .error .tooManyRecipients ∧
      sendDifferentAmountsETH ethOk sender msgValue recipients amounts st =
        .error .tooManyRecipients ∧
      sendEqualAmountsERC20 ethOk pullOk tokOk sender msgValue token recipients
        totalAmount st = .error .tooManyRecipients ∧
      sendDifferentAmountsERC20 ethOk pullOk tokOk sender msgValue token recipients
        amounts st = .error .tooManyRecipients) ∧
    (recipients.length = 200 →
      (sendEqualAmountsETH ethOk sender msgValue recipients st ≠ .error .noRecipients ∧
       sendEqualAmountsETH ethOk sender msgValue recipients st ≠ .error .tooManyRecipients) ∧
      (sendDifferentAmountsETH ethOk sender msgValue recipients amounts st ≠
        .error .noRecipients ∧
       sendDifferentAmountsETH ethOk sender msgValue recipients amounts st ≠
        .error .tooManyRecipients) ∧
      (sendEqualAmountsERC20 ethOk pullOk tokOk sender msgValue token recipients
        totalAmount st ≠ .error .noRecipients ∧
       sendEqualAmountsERC20 ethOk pullOk tokOk sender msgValue token recipients
        totalAmount st ≠ .error .tooManyRecipients) ∧
      (sendDifferentAmountsERC20 ethOk pullOk tokOk sender msgValue token recipients
        amounts st ≠ .error .noRecipients ∧
       sendDifferentAmountsERC20 ethOk pullOk tokOk sender msgValue token recipients
        amounts st ≠ .error .tooManyRecipients)) := by
  refine ⟨?_, ?_, ?_⟩
  · intro h0
    refine ⟨?_, ?_, ?_, ?_⟩
    · unfold sendEqualAmountsETH
      exact guarded_err _ _ _ hst (by rw [sendEqualAmountsETHBody, if_pos h0])
    · unfold sendDifferentAmountsETH
      exact guarded_err _ _ _ hst (by rw [sendDifferentAmountsETHBody, if_pos h0])
    · unfold sendEqualAmountsERC20
      exact guarded_err _ _ _ hst
        (by rw [sendEqualAmountsERC20Body, if_neg htok, if_pos h0])
    · unfold sendDifferentAmountsERC20
      exact guarded_err _ _ _ hst
        (by rw [sendDifferentAmountsERC20Body, if_neg htok, if_pos h0])
  · intro h201
    refine ⟨?_, ?_, ?_, ?_⟩
    · unfold sendEqualAmountsETH
      exact guarded_err _ _ _ hst
        (by rw [sendEqualAmountsETHBody, if_neg (by omega), if_pos (by omega)])
    · unfold sendDifferentAmountsETH
      exact guarded_err _ _ _ hst
        (by rw [sendDifferentAmountsETHBody, if_neg (by omega), if_pos (by omega)])
    · unfold sendEqualAmountsERC20
      exact guarded_err _ _ _ hst
        (by rw [sendEqualAmountsERC20Body, if_neg htok, if_neg (by omega),
          if_pos (by omega)])
    · unfold sendDifferentAmountsERC20
      exact guarded_err _ _ _ hst
        (by rw [sendDifferentAmountsERC20Body, if_neg htok, if_neg (by omega),
          if_pos (by omega)])
  · intro h200
    refine ⟨⟨?_, ?_⟩, ⟨?_, ?_⟩, ⟨?_, ?_⟩, ⟨?_, ?_⟩⟩
    · intro h
      unfold sendEqualAmountsETH at h
      rcases guarded_error_cases _ _ _ h with h1 | h1
      · cases h1
      · exact (sendEqualAmountsETHBody_no_size_error _ _ _ _ _ _ h200 h1).1 rfl
    · intro h
      unfold sendEqualAmountsETH at h
      rcases guarded_error_cases _ _ _ h with h1 | h1
      · cases h1
      · exact (sendEqualAmountsETHBody_no_size_error _ _ _ _ _ _ h200 h1).2 rfl
    · intro h
      unfold sendDifferentAmountsETH at h
      rcases guarded_error_cases _ _ _ h with h1 | h1
      · cases h1
      · exact (sendDifferentAmountsETHBody_no_size_error _ _ _ _ _ _ _ h200 h1).1 rfl
    · intro h
      unfold sendDifferentAmountsETH at h
      rcases guarded_error_cases _ _ _ h with h1 | h1
      · cases h1
      · exact (sendDifferentAmountsETHBody_no_size_error _ _ _ _ _ _ _ h200 h1).2 rfl
    · intro h
      unfold sendEqualAmountsERC20 at h
      rcases guarded_error_cases _ _ _ h with h1 | h1
      · cases h1
      · exact (sendEqualAmountsERC20Body_no_size_error _ _ _ _ _ _ _ _ _ _ h200 h1).1 rfl
    · intro h
      unfold sendEqualAmountsERC20 at h
      rcases guarded_error_cases _ _ _ h with h1 | h1
      · cases h1
      · exact (sendEqualAmountsERC20Body_no_size_error _ _ _ _ _ _ _ _ _ _ h200 h1).2 rfl
    · intro h
      unfold sendDifferentAmountsERC20 at h
      rcases guarded_error_cases _ _ _ h with h1 | h1
      · cases h1
      · exact (sendDifferentAmountsERC20Body_no_size_error _ _ _ _ _ _ _ _ _ _ h200 h1).1 rfl
    · intro h
      unfold sendDifferentAmountsERC20 at h
      rcases guarded_error_cases _ _ _ h with h1 | h1
      · cases h1
      · exact (sendDifferentAmountsERC20Body_no_size_error _ _ _ _ _ _ _ _ _ _ h200 h1).2 rfl

theorem c8_witness :
    (sendEqualAmountsETH ethOkAll 7 10 [] st0 = .error .noRecipients ∧
     sendDifferentAmountsETH ethOkAll 7 10 [] [] st0 = .error .noRecipients ∧
     sendEqualAmountsERC20 ethOkAll true tokOkAll 7 10 5 [] 9 st0 = .error .noRecipients ∧
     sendDifferentAmountsERC20 ethOkAll true tokOkAll 7 10 5 [] [] st0 =
       .error .noRecipients) ∧
    (sendEqualAmountsETH ethOkAll 7 10 list201 st0 = .error .tooManyRecipients ∧
     sendDifferentAmountsETH ethOkAll 7 10 list201 [] st0 = .error .tooManyRecipients ∧
     sendEqualAmountsERC20 ethOkAll true tokOkAll 7 10 5 list201 9 st0 =
       .error .tooManyRecipients ∧
     sendDifferentAmountsERC20 ethOkAll true tokOkAll 7 10 5 list201 [] st0 =
       .error .tooManyRecipients) ∧
    ((sendEqualAmountsETH ethOkAll 7 10 list200 st0 ≠ .error .noRecipients ∧
      sendEqualAmountsETH ethOkAll 7 10 list200 st0 ≠ .error .tooManyRecipients) ∧
     (sendDifferentAmountsETH ethOkAll 7 10 list200 [] st0 ≠ .error .noRecipients ∧
      sendDifferentAmountsETH ethOkAll 7 10 list200 [] st0 ≠ .error .tooManyRecipients) ∧
     (sendEqualAmountsERC20 ethOkAll true tokOkAll 7 10 5 list200 9 st0 ≠
        .error .noRecipients ∧
      sendEqualAmountsERC20 ethOkAll true tokOkAll 7 10 5 list200 9 st0 ≠
        .error .tooManyRecipients) ∧
     (sendDifferentAmountsERC20 ethOkAll true tokOkAll 7 10 5 list200 [] st0 ≠
        .error .noRecipients ∧
      sendDifferentAmountsERC20 ethOkAll true tokOkAll 7 10 5 list200 [] st0 ≠
        .error .tooManyRecipients)) :=
  ⟨(c8_batch_bounds ethOkAll tokOkAll true 7 10 5 9 [] [] st0 (by decide) (by decide)).1 rfl,
   (c8_batch_bounds ethOkAll tokOkAll true 7 10 5 9 list201 [] st0 (by decide)
      (by decide)).2.1 (by decide),
   (c8_batch_bounds ethOkAll tokOkAll true 7 10 5 9 list200 [] st0 (by decide)
      (by decide)).2.2 (by decide)⟩

/-- C9: setFlatFee called by the owner with a value above the fixed ceiling
(0.1 native units, 10^17 wei) aborts with the fee-too-high error leaving
flatFee unchanged; at or below the ceiling it sets flatFee to that value;
the constructor enforces the same ceiling on the initial fee. -/
theorem c9_fee_ceiling (sender newFee feeCollector0 flatFee0 : Nat) (st : EngineState)
    (hown : sender = st.config.owner) :
    (MAX_FLAT_FEE < newFee →
      setFlatFee sender newFee st = .error .feeTooHigh ∧
      runCall (setFlatFee sender newFee) st = st) ∧
    (newFee ≤ MAX_FLAT_FEE →
      setFlatFee sender newFee st =
        .ok { state := { st with config := { st.config with flatFee := newFee } },
              events := [Event.FlatFeeUpdated newFee],
              sent := [], tokenPulled := 0, tokenSent := [] }) ∧
    (feeCollector0 ≠ 0 → MAX_FLAT_FEE < flatFee0 →
      constructorFn sender feeCollector0 flatFee0 = .error .feeTooHigh) ∧
    (feeCollector0 ≠ 0 → flatFee0 ≤ MAX_FLAT_FEE →
      constructorFn sender feeCollector0 flatFee0 =
        .ok { config := { owner := sender, feeCollector := feeCollector0,
                          flatFee := flatFee0, feesEnabled := false },
              status := NOT_ENTERED, balance := 0 }) := by
  refine ⟨?_, ?_, ?_, ?_⟩
  · intro hf
    have he : setFlatFee sender newFee st = .error .feeTooHigh := by
      unfold setFlatFee
      rw [if_neg (not_not_intro hown), if_pos hf]
    exact ⟨he, runCall_error _ _ _ he⟩
  · intro hf
    unfold setFlatFee
    rw [if_neg (not_not_intro hown), if_neg (by omega)]
  · intro hc hf
    unfold constructorFn
    rw [if_neg hc, if_pos hf]
  · intro hc hf
    unfold constructorFn
    rw [if_neg hc, if_neg (by omega)]

theorem c9_witness :
    (setFlatFee 100 (MAX_FLAT_FEE + 1) st0 = .error .feeTooHigh ∧
      runCall (setFlatFee 100 (MAX_FLAT_FEE + 1)) st0 = st0) ∧
    setFlatFee 100 MAX_FLAT_FEE st0 =
      .ok { state := { st0 with config := { st0.config with flatFee := MAX_FLAT_FEE } },
            events := [Event.FlatFeeUpdated MAX_FLAT_FEE],
            sent := [], tokenPulled := 0, tokenSent := [] } ∧
    constructorFn 100 200 (MAX_FLAT_FEE + 1) = .error .feeTooHigh ∧
    constructorFn 100 200 0 =
      .ok { config := { owner := 100, feeCollector := 200, flatFee := 0,
                        feesEnabled := false },
            status := NOT_ENTERED, balance := 0 } :=
  ⟨(c9_fee_ceiling 100 (MAX_FLAT_FEE + 1) 200 0 st0 rfl).1 (by omega),
   (c9_fee_ceiling 100 MAX_FLAT_FEE 200 0 st0 rfl).2.1 (by omega),
   (c9_fee_ceiling 100 0 200 (MAX_FLAT_FEE + 1) st0 rfl).2.2.1 (by decide) (by omega),
   (c9_fee_ceiling 100 0 200 0 st0 rfl).2.2.2 (by decide) (by omega)⟩

/-- C10: a successful equal-split token batch with N recipients pulls the
full totalAmount of tokens from the caller but transfers only
N * floor(totalAmount / N) to recipients; the token remainder
totalAmount mod N stays in the engine's own token balance and is not
returned to the caller within the call. -/
theorem c10_token_equal_split_remainder (ethOk tokOk : Nat → Nat → Bool)
    (sender msgValue token totalAmount : Nat) (recipients : List Nat) (st : EngineState)
    (hst : st.status ≠ ENTERED) (htok : token ≠ 0)
    (hn : recipients.length ≠ 0) (hn2 : recipients.length ≤ 200)
    (hta : totalAmount ≠ 0) (hfee : getCurrentFee st ≤ msgValue)
    (hper : totalAmount / recipients.length ≠ 0)
    (hz : ∀ r ∈ recipients, r ≠ 0)
    (hs : ∀ r a, tokOk r a = true)
    (hns : sender ∉ recipients) :
    ∃ out, sendEqualAmountsERC20 ethOk true tokOk sender msgValue token recipients
        totalAmount st = .ok out ∧
      out.tokenPulled = totalAmount ∧
      out.tokenSent = rPairs recipients (totalAmount / recipients.length) ∧
      amountSum out.tokenSent = recipients.length * (totalAmount / recipients.length) ∧
      out.tokenPulled - amountSum out.tokenSent = totalAmount % recipients.length ∧
      sentTo sender out.tokenSent = 0 := by
  have hbody := sendEqualAmountsERC20Body_allOk ethOk tokOk sender msgValue token totalAmount
    recipients ⟨st.config, ENTERED, st.balance + msgValue⟩ htok hn hn2 hta hfee hper hz hs
  refine ⟨_, guarded_ok _ { st with balance := st.balance + msgValue } _ hst hbody,
    rfl, rfl, ?_, ?_, ?_⟩
  · show amountSum (recipients.map (fun r => (r, totalAmount / recipients.length))) =
      recipients.length * (totalAmount / recipients.length)
    exact amountSum_map_const _ _
  · show totalAmount -
      amountSum (recipients.map (fun r => (r, totalAmount / recipients.length))) =
      totalAmount % recipients.length
    rw [amountSum_map_const]
    have hmod := Nat.mod_add_div totalAmount recipients.length
    omega
  · show sentTo sender (recipients.map (fun r => (r, totalAmount / recipients.length))) = 0
    refine sentTo_eq_zero _ _ ?_
    intro p hp
    obtain ⟨r, hr, rfl⟩ := List.mem_map.mp hp
    intro hcontra
    exact hns (hcontra ▸ hr)

theorem c10_witness :
    ∃ out, sendEqualAmountsERC20 ethOkAll true tokOkAll 7 0 5 [1, 2, 3] 10 st0 = .ok out ∧
      out.tokenPulled = 10 ∧
      out.tokenSent = rPairs [1, 2, 3] (10 / [1, 2, 3].length) ∧
      amountSum out.tokenSent = [1, 2, 3].length * (10 / [1, 2, 3].length) ∧
      out.tokenPulled - amountSum out.tokenSent = 10 % [1, 2, 3].length ∧
      sentTo 7 out.tokenSent = 0 :=
  c10_token_equal_split_remainder ethOkAll tokOkAll 7 0 5 10 [1, 2, 3] st0 (by decide)
    (by decide) (by decide) (by decide) (by decide) (by decide) (by decide) (by decide)
    (fun _ _ => rfl) (by decide)
